import Mathlib

/-! TrackerAngleAnalysis: solar position and single-axis tracker angles.

A shallow embedding of `angle_conversions.h`, `solarpos.c` and
`tracking_algorithm.c`, followed by the properties proved about it.

Modelling conventions.

* A C `double` is an exact real number: there is no rounding and there are no
  infinities.  Quantities that the code computes from the integer inputs by
  field arithmetic only (`zulu`, `jd`, `time`, the mean longitude and the mean
  anomaly in degrees) are kept in `ℚ`, where they can be evaluated, and are
  cast to `ℝ` where they first meet `M_PI` or a transcendental function.
  What is proved is proved of the code run in exact arithmetic.  Where the
  exact value sits on the edge of a domain (the argument of the unclipped
  `acos` of `tracker_incident`, which is exactly 1 for a tracker facing the
  sun) the rounded value of the code can fall outside; the statements that
  depend on it say so.
* `asin` and `acos` called outside `[-1, 1]` are a domain error and give NaN in
  C.  A result of type `Option ℝ` uses `none` for "no real number": NaN, or
  undefined behaviour (a `double` to `int` conversion out of range, a read
  past the end of an array).
* Division is the division of the field, in which `x / 0 = 0`; the C code gets
  an infinity or NaN from an exactly zero divisor.  Where a divisor of the code
  can be zero the model says what the code does: `atan_div` is `atan` of a
  quotient, also of an infinite one; the predicates `tracker_angle_nan` and
  `solar_position_calc.azm_nan` hold exactly where a quotient is `0.0 / 0.0`.
  The real-valued functions cannot show that NaN: what they give there stands
  for no value of the code, and the properties below are stated away from it.
  The quotient by `gcr` in `shade_avoidance_angle` is studied for `0 < gcr`
  only, and nothing is proved of `tan(latrad)` in `ws` (sunrise and sunset),
  which has no value at a pole.  The tests `cos(elv) == 0.0` and the
  comparisons are those of exact real numbers.
* The integer inputs are `Nat`/`Int`; the widths of the C struct fields are the
  predicate `solarpos_inputs_t.machine`.
-/

namespace TrackerAngleAnalysis

/-! ## angle_conversions.h -/

/-- The macro `M_PI`. -/
noncomputable def M_PI : ℝ := Real.pi

/-- The macro `DEG_CIRCLE`. -/
def DEG_CIRCLE : ℕ := 360

/-- The macro `DEG_TO_RAD`, `M_PI / (DEG_CIRCLE / 2)`; the inner division is the
integer division `360 / 2`. -/
noncomputable def DEG_TO_RAD : ℝ := M_PI / ((DEG_CIRCLE / 2 : ℕ) : ℝ)

/-- The macro `RAD_TO_DEG`, `(DEG_CIRCLE / 2) / M_PI`. -/
noncomputable def RAD_TO_DEG : ℝ := ((DEG_CIRCLE / 2 : ℕ) : ℝ) / M_PI

/-- The function `deg2rad`. -/
noncomputable def deg2rad (degrees : ℝ) : ℝ := degrees * DEG_TO_RAD

/-- The function `rad2deg`. -/
noncomputable def rad2deg (radians : ℝ) : ℝ := radians * RAD_TO_DEG

/-! ## The C library -/

section libm

variable {α : Type} [LinearOrderedField α] [FloorRing α]

/-- Conversion of a `double` to an integer: the fractional part is discarded
(truncation toward zero). -/
def trunc (x : α) : ℤ := if 0 ≤ x then ⌊x⌋ else ⌈x⌉

/-- The function `fmod` of `math.h`: `x - n * y`, where `n` is `x / y` with its
fractional part discarded; the result has the sign of `x`. -/
def fmod (x y : α) : α := x - (trunc (x / y) : α) * y

end libm

/-- The width of `int`: 32 bits. -/
def INT_MAX : ℤ := 2147483647

/-- The function `abs` of `stdlib.h`, `int abs(int)`, called on a `double`: the
argument is first converted to `int` (undefined when the truncated value does
not fit), and the `int` result is converted back where it is compared with a
`double`. -/
noncomputable def c_abs (x : ℝ) : Option ℝ :=
  if -INT_MAX ≤ trunc x ∧ trunc x ≤ INT_MAX then some ((|trunc x| : ℤ) : ℝ) else none

/-- The function `asin` of `math.h`: a domain error (NaN) outside `[-1, 1]`. -/
noncomputable def c_asin (x : ℝ) : Option ℝ :=
  if -1 ≤ x ∧ x ≤ 1 then some (Real.arcsin x) else none

/-- The function `acos` of `math.h`: a domain error (NaN) outside `[-1, 1]`. -/
noncomputable def c_acos (x : ℝ) : Option ℝ :=
  if -1 ≤ x ∧ x ≤ 1 then some (Real.arccos x) else none

/-- The function `atan2` of `math.h`, the angle of the point `(x, y)` in
`(-π, π]`. -/
noncomputable def atan2 (y x : ℝ) : ℝ :=
  if 0 < x then Real.arctan (y / x)
  else if x < 0 then (if 0 ≤ y then Real.arctan (y / x) + Real.pi else Real.arctan (y / x) - Real.pi)
  else if 0 < y then Real.pi / 2
  else if y < 0 then -(Real.pi / 2)
  else 0

/-- The expression `atan(y / x)`.  For `x = 0` and `y ≠ 0` the quotient of the C
code is an infinity and `atan` of it is `π/2` or `-π/2`; the zero divisor is
taken to be `+0.0`, so the sign is that of `y` (with `-0.0` it is the
opposite).  For `x = 0` and `y = 0` the quotient is `0.0 / 0.0`, a NaN: the `0`
given here stands for no value of the code. -/
noncomputable def atan_div (y x : ℝ) : ℝ :=
  if x = 0 then (if 0 < y then Real.pi / 2 else if y < 0 then -(Real.pi / 2) else 0)
  else Real.arctan (y / x)

/-- The comparison `a <= b` of two `double`s of which the right one may be NaN:
false when it is. -/
def le_nan (a : ℝ) (b : Option ℝ) : Prop :=
  match b with
  | some c => a ≤ c
  | none => False

noncomputable instance (a : ℝ) (b : Option ℝ) : Decidable (le_nan a b) := by
  unfold le_nan
  cases b <;> infer_instance

/-! ## solarpos.h and tracking_algorithm.h -/

/-- The struct `solarpos_t`: the sun parameters returned to the caller. -/
structure solarpos_t where
  azimuth : ℝ
  zenith : ℝ
  elevation : ℝ
  declination : ℝ
  sunrise : ℝ
  sunset : ℝ
  eccentricity : ℝ
  true_time : ℝ

/-- The struct `tracker_t`. -/
structure tracker_t where
  alpha : ℝ
  beta : ℝ
  gamma : ℝ
  gcr : ℝ
  night_stow : ℝ
  rom : ℝ

/-! ## tracking_algorithm.c -/

namespace tracker_incident

/-! The locals of `tracker_incident`, as functions of the angles in radians. -/

/-- The local `tracker_x`. -/
noncomputable def tracker_x (alpha beta gamma : ℝ) : ℝ :=
  Real.cos gamma * Real.sin beta * Real.cos alpha + -Real.sin gamma * -Real.sin alpha

/-- The local `tracker_y`. -/
noncomputable def tracker_y (alpha beta gamma : ℝ) : ℝ :=
  Real.cos gamma * Real.sin beta * Real.sin alpha + -Real.sin gamma * Real.cos alpha

/-- The local `tracker_z`. -/
noncomputable def tracker_z (beta gamma : ℝ) : ℝ :=
  Real.cos gamma * Real.cos beta

/-- The local `sun_x`. -/
noncomputable def sun_x (theta phi : ℝ) : ℝ := Real.cos theta * Real.sin phi

/-- The local `sun_y`. -/
noncomputable def sun_y (theta phi : ℝ) : ℝ := Real.sin theta * Real.sin phi

/-- The local `sun_z`. -/
noncomputable def sun_z (phi : ℝ) : ℝ := Real.cos phi

/-- The argument of `acos`: the dot product of sun and tracker. -/
noncomputable def dot (tracker : tracker_t) (solarpos : solarpos_t) : ℝ :=
  let gamma := deg2rad tracker.gamma
  let beta := deg2rad tracker.beta
  let alpha := deg2rad tracker.alpha
  let theta := deg2rad (360 - solarpos.azimuth)
  let phi := deg2rad solarpos.zenith
  sun_x theta phi * tracker_x alpha beta gamma + sun_y theta phi * tracker_y alpha beta gamma
    + sun_z phi * tracker_z beta gamma

end tracker_incident

/-- The function `tracker_incident`: the angle of incidence in degrees; `none`
is the NaN of an `acos` domain error.  The argument of `acos` is passed as it
is computed: the code does not clip it to `[-1, 1]`. -/
noncomputable def tracker_incident (tracker : tracker_t) (solarpos : solarpos_t) : Option ℝ :=
  (c_acos (tracker_incident.dot tracker solarpos)).map rad2deg

/-- The local `A` of `tracker_angle`. -/
noncomputable def tracker_angle_A (alpha theta phi : ℝ) : ℝ :=
  Real.cos alpha * Real.sin phi * Real.sin theta - Real.sin alpha * Real.sin phi * Real.cos theta

/-- The local `B` of `tracker_angle`. -/
noncomputable def tracker_angle_B (alpha beta theta phi : ℝ) : ℝ :=
  Real.sin alpha * Real.sin beta * Real.sin phi * Real.sin theta
    + Real.cos alpha * Real.sin beta * Real.sin phi * Real.cos theta
    + Real.cos beta * Real.cos phi

/-- The function `tracker_angle`: the value returned, and the tracker struct
as the call leaves it (the C function writes `tracker->gamma` through the
pointer).  Where `tracker_angle_nan` holds the C code returns and stores NaN,
and the angle given here stands for no value of the code. -/
noncomputable def tracker_angle (solarpos : solarpos_t) (tracker : tracker_t) : ℝ × tracker_t :=
  if solarpos.zenith ≥ 90.0 then
    (tracker.night_stow, tracker)
  else
    let beta := deg2rad tracker.beta
    let alpha := deg2rad tracker.alpha
    let theta := deg2rad (360 - solarpos.azimuth)
    let phi := deg2rad solarpos.zenith
    let A := tracker_angle_A alpha theta phi
    let B := tracker_angle_B alpha beta theta phi
    let calculated_angle := -atan_div A B
    let q := atan2 A B
    let calculated_angle :=
      if q > M_PI / 2 ∨ q < (-1 * M_PI) / 2 then -calculated_angle else calculated_angle
    (rad2deg calculated_angle, { tracker with gamma := rad2deg calculated_angle })

/-- The quotient `A / B` of `tracker_angle` is `0.0 / 0.0`: the sun is above the
horizon and the locals `A` and `B` are both zero.  Then `atan(A / B)` is NaN,
and NaN is what the C code stores in `tracker->gamma` and returns. -/
def tracker_angle_nan (solarpos : solarpos_t) (tracker : tracker_t) : Prop :=
  ¬ solarpos.zenith ≥ 90.0
    ∧ tracker_angle_A (deg2rad tracker.alpha) (deg2rad (360 - solarpos.azimuth))
        (deg2rad solarpos.zenith) = 0
    ∧ tracker_angle_B (deg2rad tracker.alpha) (deg2rad tracker.beta)
        (deg2rad (360 - solarpos.azimuth)) (deg2rad solarpos.zenith) = 0

/-- The local `angle_sa` of `shade_avoidance_angle` before the range-of-motion
clamp; `none` is NaN or an undefined `abs`. -/
noncomputable def shade_avoidance_raw (tracker_angle : ℝ) (tracker : tracker_t) : Option ℝ :=
  let direct_cutoff := (c_acos tracker.gcr).map rad2deg
  match c_abs tracker_angle with
  | none => none
  | some a =>
    if le_nan a direct_cutoff then
      some tracker_angle
    else
      let gamma := 90.0 - tracker_angle
      if tracker_angle < 0 then
        (c_asin (Real.sin (deg2rad gamma) / tracker.gcr)).map fun beta1 =>
          rad2deg (deg2rad 180 - beta1 - deg2rad gamma)
      else
        (c_asin (Real.sin (deg2rad gamma) / tracker.gcr)).map fun asin_value =>
          let beta2 := deg2rad 180 - asin_value
          rad2deg (deg2rad 180 - beta2 - deg2rad gamma)

/-- The function `shade_avoidance_angle`.  Both comparisons of the clamp are
false on NaN, which is then returned as it is. -/
noncomputable def shade_avoidance_angle (tracker_angle : ℝ) (tracker : tracker_t) : Option ℝ :=
  match shade_avoidance_raw tracker_angle tracker with
  | none => none
  | some angle_sa =>
    if angle_sa < -tracker.rom then some (-tracker.rom)
    else if angle_sa > tracker.rom then some tracker.rom
    else some angle_sa

/-! ## solarpos.c -/

/-- The struct `solarpos_inputs_t`.  The C fields are `uint16_t year`,
`uint8_t month, day, hour, minute`, `int8_t timezone` and two `double`s. -/
structure solarpos_inputs_t where
  year : ℕ
  month : ℕ
  day : ℕ
  hour : ℕ
  minute : ℕ
  timezone : ℤ
  latitude : ℝ
  longitude : ℝ

/-- The array `nday` of `julian`. -/
def nday : List ℤ := [31, 28, 31, 30, 31, 30, 31, 31, 30, 31, 30, 31]

/-- The loop `while (i < month) { jday = jday + nday[i-1]; i++; }` of `julian`,
by the number of iterations still to run; a read past the end of `nday` is
undefined. -/
def julian_loop : ℕ → ℕ → ℤ → Option ℤ
  | 0, _, jday => some jday
  | n + 1, i, jday =>
    match nday[i - 1]? with
    | some d => julian_loop n (i + 1) (jday + d)
    | none => none

/-- The function `julian`: the day of the year.  The loop starts at `i = 1`
and runs while `i < month`, that is `month - 1` times (not at all for month 0
or 1). -/
def julian (solarpos_inputs : solarpos_inputs_t) : Option ℤ :=
  let k : ℤ := if solarpos_inputs.year % 4 = 0 then 1 else 0
  match julian_loop (solarpos_inputs.month - 1) 1 0 with
  | none => none
  | some jday =>
    if solarpos_inputs.month > 2 then some (jday + k + solarpos_inputs.day)
    else some (jday + solarpos_inputs.day)

namespace solar_position_calc

/-! The locals of `solar_position_calc`, each as a function of the inputs and
of `jday0`, the value `julian` returned. -/

/-- The local `zulu` as first computed: local time less the time zone. -/
def zulu0 (inp : solarpos_inputs_t) : ℚ :=
  (inp.hour : ℚ) + (inp.minute : ℚ) / 60.0 - (inp.timezone : ℚ)

/-- The local `zulu` after it is forced towards 0-24 hours. -/
def zulu (inp : solarpos_inputs_t) : ℚ :=
  if zulu0 inp < 0.0 then zulu0 inp + 24.0
  else if zulu0 inp > 24.0 then zulu0 inp - 24.0
  else zulu0 inp

/-- The local `jday` after the same adjustment. -/
def jday (inp : solarpos_inputs_t) (jday0 : ℤ) : ℤ :=
  if zulu0 inp < 0.0 then jday0 - 1
  else if zulu0 inp > 24.0 then jday0 + 1
  else jday0

/-- The local `delta`. -/
def delta (inp : solarpos_inputs_t) : ℤ := (inp.year : ℤ) - 1949

/-- The local `leap`: C integer division, which truncates toward zero. -/
def leap (inp : solarpos_inputs_t) : ℤ := Int.tdiv (delta inp) 4

/-- The local `jd`. -/
def jd (inp : solarpos_inputs_t) (jday0 : ℤ) : ℚ :=
  32916.5 + (delta inp : ℚ) * 365.0 + (leap inp : ℚ) + (jday inp jday0 : ℚ) + zulu inp / 24.0

/-- The local `time`: days from noon 1 Jan 2000. -/
def time (inp : solarpos_inputs_t) (jday0 : ℤ) : ℚ := jd inp jday0 - 51545.0

/-- The idiom `x = fmod(x, m); if (x < 0.0) x = x + m;`. -/
def wrap {α : Type} [LinearOrderedField α] [FloorRing α] (x m : α) : α :=
  if fmod x m < 0 then fmod x m + m else fmod x m

/-- The local `mnlong`: mean longitude in degrees. -/
def mnlong (inp : solarpos_inputs_t) (jday0 : ℤ) : ℚ :=
  wrap (280.46 + 0.9856474 * time inp jday0) 360.0

/-- The local `mnanom` in degrees, before `deg2rad`. -/
def mnanom_deg (inp : solarpos_inputs_t) (jday0 : ℤ) : ℚ :=
  wrap (357.528 + 0.9856003 * time inp jday0) 360.0

/-- The local `mnanom`: mean anomaly in radians. -/
noncomputable def mnanom (inp : solarpos_inputs_t) (jday0 : ℤ) : ℝ :=
  deg2rad (mnanom_deg inp jday0 : ℚ)

/-- The local `eclong`: ecliptic longitude in radians. -/
noncomputable def eclong (inp : solarpos_inputs_t) (jday0 : ℤ) : ℝ :=
  deg2rad (wrap (((mnlong inp jday0 : ℚ) : ℝ) + 1.915 * Real.sin (mnanom inp jday0)
    + 0.020 * Real.sin (2.0 * mnanom inp jday0)) 360.0)

/-- The local `oblqec`: obliquity of the ecliptic in radians. -/
noncomputable def oblqec (inp : solarpos_inputs_t) (jday0 : ℤ) : ℝ :=
  deg2rad (((23.439 - 0.0000004 * time inp jday0 : ℚ) : ℝ))

/-- The local `num`. -/
noncomputable def num (inp : solarpos_inputs_t) (jday0 : ℤ) : ℝ :=
  Real.cos (oblqec inp jday0) * Real.sin (eclong inp jday0)

/-- The local `den`. -/
noncomputable def den (inp : solarpos_inputs_t) (jday0 : ℤ) : ℝ :=
  Real.cos (eclong inp jday0)

/-- The local `ra`: right ascension in radians.  A zero `den` makes the
quotient infinite, see `atan_div`. -/
noncomputable def ra (inp : solarpos_inputs_t) (jday0 : ℤ) : ℝ :=
  let ra := atan_div (num inp jday0) (den inp jday0)
  if den inp jday0 < 0.0 then ra + M_PI
  else if num inp jday0 < 0.0 then ra + 2.0 * M_PI
  else ra

/-- The argument of `asin` in the declination. -/
noncomputable def dec_arg (inp : solarpos_inputs_t) (jday0 : ℤ) : ℝ :=
  Real.sin (oblqec inp jday0) * Real.sin (eclong inp jday0)

/-- The local `dec`: declination in radians.  The argument of `asin` is a
product of two sines, so it lies in `[-1, 1]` (`dec_arg_mem`) and the call has
no domain error. -/
noncomputable def dec (inp : solarpos_inputs_t) (jday0 : ℤ) : ℝ :=
  Real.arcsin (dec_arg inp jday0)

/-- The local `gmst`: Greenwich mean sidereal time in hours. -/
def gmst (inp : solarpos_inputs_t) (jday0 : ℤ) : ℚ :=
  wrap (6.697375 + 0.0657098242 * time inp jday0 + zulu inp) 24.0

/-- The local `lmst`: local mean sidereal time in radians. -/
noncomputable def lmst (inp : solarpos_inputs_t) (jday0 : ℤ) : ℝ :=
  deg2rad (wrap (((gmst inp jday0 : ℚ) : ℝ) + inp.longitude / 15.0) 24.0 * 15.0)

/-- The local `ha`: hour angle in radians. -/
noncomputable def ha (inp : solarpos_inputs_t) (jday0 : ℤ) : ℝ :=
  let ha := lmst inp jday0 - ra inp jday0
  if ha < -M_PI then ha + 2 * M_PI
  else if ha > M_PI then ha - 2 * M_PI
  else ha

/-- The local `latrad`. -/
noncomputable def latrad (inp : solarpos_inputs_t) : ℝ := deg2rad inp.latitude

/-- The local `arg` as first assigned, for the elevation. -/
noncomputable def arg_elv (inp : solarpos_inputs_t) (jday0 : ℤ) : ℝ :=
  Real.sin (dec inp jday0) * Real.sin (latrad inp)
    + Real.cos (dec inp jday0) * Real.cos (latrad inp) * Real.cos (ha inp jday0)

/-- The local `elv` in radians, before the refraction correction; `asin` is
called inside `[-1, 1]` only. -/
noncomputable def elv (inp : solarpos_inputs_t) (jday0 : ℤ) : ℝ :=
  if arg_elv inp jday0 > 1.0 then M_PI / 2.0
  else if arg_elv inp jday0 < -1.0 then -M_PI / 2.0
  else Real.arcsin (arg_elv inp jday0)

/-- The local `arg` as assigned for the azimuth.  The divisor is zero at a
latitude whose cosine is zero, see `azm_nan`. -/
noncomputable def arg_azm (inp : solarpos_inputs_t) (jday0 : ℤ) : ℝ :=
  (Real.sin (elv inp jday0) * Real.sin (latrad inp) - Real.sin (dec inp jday0))
    / (Real.cos (elv inp jday0) * Real.cos (latrad inp))

/-- The quotient assigned to `arg` for the azimuth is `0.0 / 0.0`: the test
`cos(elv) == 0.0` fails, and dividend and divisor are both zero.  Then `arg` is
NaN, both clipping comparisons are false, and `azm` and the azimuth returned
are NaN. -/
def azm_nan (inp : solarpos_inputs_t) (jday0 : ℤ) : Prop :=
  ¬ Real.cos (elv inp jday0) = 0.0
    ∧ Real.sin (elv inp jday0) * Real.sin (latrad inp) - Real.sin (dec inp jday0) = 0
    ∧ Real.cos (elv inp jday0) * Real.cos (latrad inp) = 0

/-- The local `azm`: solar azimuth in radians per Iqbal; `acos` is called
inside `[-1, 1]` only.  Where `azm_nan` holds the C code has NaN, and the angle
given here stands for no value of the code. -/
noncomputable def azm (inp : solarpos_inputs_t) (jday0 : ℤ) : ℝ :=
  if Real.cos (elv inp jday0) = 0.0 then M_PI
  else
    let azm :=
      if arg_azm inp jday0 > 1.0 then 0.0
      else if arg_azm inp jday0 < -1.0 then M_PI
      else Real.arccos (arg_azm inp jday0)
    if (ha inp jday0 ≤ 0.0 ∧ ha inp jday0 ≥ -M_PI) ∨ ha inp jday0 ≥ M_PI then M_PI - azm
    else M_PI + azm

/-- The local `elv` once changed to degrees for the atmospheric correction. -/
noncomputable def elv_deg (inp : solarpos_inputs_t) (jday0 : ℤ) : ℝ :=
  rad2deg (elv inp jday0)

/-- The refraction term for an elevation in degrees; `pow(elv, 2)` is the
square. -/
noncomputable def refrac_of (e : ℝ) : ℝ :=
  if e > -0.56 then
    3.51561 * (0.1594 + 0.0196 * e + 0.00002 * e ^ 2) / (1.0 + 0.505 * e + 0.0845 * e ^ 2)
  else 0.56

/-- The local `refrac`. -/
noncomputable def refrac (inp : solarpos_inputs_t) (jday0 : ℤ) : ℝ :=
  refrac_of (elv_deg inp jday0)

/-- The local `elv` at the end: the atmospheric corrected elevation in
radians. -/
noncomputable def elv_corrected (inp : solarpos_inputs_t) (jday0 : ℤ) : ℝ :=
  if elv_deg inp jday0 + refrac inp jday0 > 90.0 then deg2rad 90.0
  else deg2rad (elv_deg inp jday0 + refrac inp jday0)

/-- The local `E`: equation of time in hours. -/
noncomputable def E (inp : solarpos_inputs_t) (jday0 : ℤ) : ℝ :=
  let E := (((mnlong inp jday0 : ℚ) : ℝ) - rad2deg (ra inp jday0)) / 15.0
  if E < -0.33 then E + 24.0
  else if E > 0.33 then E - 24.0
  else E

/-- The local `ws`: sunrise hour angle in radians; `acos` is called inside
`(-1, 1)` only. -/
noncomputable def ws (inp : solarpos_inputs_t) (jday0 : ℤ) : ℝ :=
  let arg := -Real.tan (latrad inp) * Real.tan (dec inp jday0)
  if arg ≥ 1.0 then 0.0
  else if arg ≤ -1.0 then M_PI
  else Real.arccos arg

/-- The local `Eo`: Earth-sun distance (AU). -/
noncomputable def Eo (inp : solarpos_inputs_t) (jday0 : ℤ) : ℝ :=
  1.00014 - 0.01671 * Real.cos (mnanom inp jday0) - 0.00014 * Real.cos (2.0 * mnanom inp jday0)

/-- The struct that `solar_position_calc` fills in and returns, given the
value `julian` returned.  The field `azimuth` is NaN in the C code where
`azm_nan` holds. -/
noncomputable def result (inp : solarpos_inputs_t) (jday0 : ℤ) : solarpos_t where
  sunrise := 12.0 - rad2deg (ws inp jday0) / 15.0
    - (inp.longitude / 15.0 - (inp.timezone : ℝ)) - E inp jday0
  sunset := 12.0 + rad2deg (ws inp jday0) / 15.0
    - (inp.longitude / 15.0 - (inp.timezone : ℝ)) - E inp jday0
  eccentricity := 1.0 / (Eo inp jday0 * Eo inp jday0)
  true_time := (inp.hour : ℝ) + (inp.minute : ℝ) / 60.0
    + (inp.longitude / 15.0 - (inp.timezone : ℝ)) + E inp jday0
  azimuth := rad2deg (azm inp jday0)
  zenith := rad2deg (0.5 * M_PI - elv_corrected inp jday0)
  elevation := rad2deg (elv_corrected inp jday0)
  declination := rad2deg (dec inp jday0)

end solar_position_calc

/-- The function `solar_position_calc`; `none` when the call to `julian` is
undefined. -/
noncomputable def solar_position_calc (solarpos_inputs : solarpos_inputs_t) :
    Option solarpos_t :=
  (julian solarpos_inputs).map (solar_position_calc.result solarpos_inputs)

/-! ## The calendar, for comparison with `julian` -/

/-- A leap year of the Gregorian calendar: divisible by 4 and not by 100, or
divisible by 400. -/
def gregorian_leap (year : ℕ) : Prop :=
  (year % 4 = 0 ∧ year % 100 ≠ 0) ∨ year % 400 = 0

instance (year : ℕ) : Decidable (gregorian_leap year) := by
  unfold gregorian_leap
  infer_instance

/-- The length of a month of the Gregorian calendar; February has 29 days
exactly in leap years. -/
def gregorian_month_length (year month : ℕ) : ℕ :=
  match month with
  | 1 => 31
  | 2 => if gregorian_leap year then 29 else 28
  | 3 => 31
  | 4 => 30
  | 5 => 31
  | 6 => 30
  | 7 => 31
  | 8 => 31
  | 9 => 30
  | 10 => 31
  | 11 => 30
  | 12 => 31
  | _ => 0

/-- The ordinal day of the year: the lengths of all earlier months of that
year, plus the day of the month. -/
def gregorian_ordinal_day (year month day : ℕ) : ℕ :=
  ((List.range (month - 1)).map fun i => gregorian_month_length year (i + 1)).sum + day

/-! ## Notions used to state the properties of `shade_avoidance_angle` and `jd` -/

/-- The backtracking angle in degrees as the specification words it: with
`gamma = 90 - x`, it is `180 - beta1 - gamma` with `beta1 = asin(sin(gamma)/gcr)`
when `x < 0`, and `180 - beta2 - gamma` with `beta2 = 180 - asin(sin(gamma)/gcr)`
otherwise, `asin` in degrees of an argument taken in degrees. -/
noncomputable def backtracking_formula (x gcr : ℝ) : ℝ :=
  let gamma := 90 - x
  if x < 0 then
    let beta1 := rad2deg (Real.arcsin (Real.sin (deg2rad gamma) / gcr))
    180 - beta1 - gamma
  else
    let beta2 := 180 - rad2deg (Real.arcsin (Real.sin (deg2rad gamma) / gcr))
    180 - beta2 - gamma

/-- The whole days in `jd` for year `Y` and day of year `d`:
`(Y - 1949) * 365 + (Y - 1949) / 4 + d`, the division being that of C. -/
def day_count (Y : ℕ) (d : ℤ) : ℤ :=
  ((Y : ℤ) - 1949) * 365 + Int.tdiv ((Y : ℤ) - 1949) 4 + d

/-! ## The equinox scenario -/

/-- The input of the scenario "latitude 0, longitude 0, time zone 0, 20 March
2000, 12:00". -/
noncomputable def equinox_inputs : solarpos_inputs_t :=
  ⟨2000, 3, 20, 12, 0, 0, 0, 0⟩

/-! ## Properties of `tracker_angle` -/

/-- C3: when the sun's zenith is at least 90 degrees, `tracker_angle` returns
exactly the night-stow angle, whatever the azimuth, yaw, pitch and current
roll are. -/
theorem tracker_angle_night_stow (solarpos : solarpos_t) (tracker : tracker_t)
    (h : solarpos.zenith ≥ 90) :
    (tracker_angle solarpos tracker).1 = tracker.night_stow := by
  have h90 : solarpos.zenith ≥ 90.0 := by norm_num; exact h
  simp [tracker_angle, h90]

/-- Witness for C3: sun 5 degrees below the horizon, the tracker of `main.c`
with a roll of 33 degrees left by an earlier call. -/
theorem tracker_angle_night_stow_witness :
    (95 : ℝ) ≥ 90 ∧
      (tracker_angle ⟨180, 95, -5, 0, 6, 18, 1, 0⟩ ⟨0, 0, 33, 0.35, -10, 60⟩).1 = -10 :=
  ⟨by norm_num,
    tracker_angle_night_stow ⟨180, 95, -5, 0, 6, 18, 1, 0⟩ ⟨0, 0, 33, 0.35, -10, 60⟩
      (by norm_num)⟩

/-- C4: when the sun's zenith is at least 90 degrees, `tracker_angle` leaves the
whole tracker struct as it was: the roll `gamma` keeps its previous value (it
is not set to the night-stow angle) and `alpha`, `beta`, `gcr`, `night_stow`
and `rom` are untouched. -/
theorem tracker_angle_night_frame (solarpos : solarpos_t) (tracker : tracker_t)
    (h : solarpos.zenith ≥ 90) :
    (tracker_angle solarpos tracker).2 = tracker := by
  have h90 : solarpos.zenith ≥ 90.0 := by norm_num; exact h
  simp [tracker_angle, h90]

/-- Witness for C4: the roll of 33 degrees survives a night-time call. -/
theorem tracker_angle_night_frame_witness :
    (95 : ℝ) ≥ 90 ∧
      (tracker_angle ⟨180, 95, -5, 0, 6, 18, 1, 0⟩ ⟨0, 0, 33, 0.35, -10, 60⟩).2
        = ⟨0, 0, 33, 0.35, -10, 60⟩ :=
  ⟨by norm_num,
    tracker_angle_night_frame ⟨180, 95, -5, 0, 6, 18, 1, 0⟩ ⟨0, 0, 33, 0.35, -10, 60⟩
      (by norm_num)⟩

/-- C5: when the sun's zenith is below 90 degrees, `tracker_angle` stores into
`gamma` the very value (in degrees) that it returns, and leaves `alpha`,
`beta`, `gcr`, `night_stow` and `rom` unchanged. -/
theorem tracker_angle_day_frame (solarpos : solarpos_t) (tracker : tracker_t)
    (h : solarpos.zenith < 90) :
    (tracker_angle solarpos tracker).2.gamma = (tracker_angle solarpos tracker).1
      ∧ (tracker_angle solarpos tracker).2.alpha = tracker.alpha
      ∧ (tracker_angle solarpos tracker).2.beta = tracker.beta
      ∧ (tracker_angle solarpos tracker).2.gcr = tracker.gcr
      ∧ (tracker_angle solarpos tracker).2.night_stow = tracker.night_stow
      ∧ (tracker_angle solarpos tracker).2.rom = tracker.rom := by
  have h90 : ¬ solarpos.zenith ≥ 90.0 := by norm_num; exact h
  simp [tracker_angle, h90]

/-- Witness for C5: sun at zenith 40 degrees, azimuth 120 degrees. -/
theorem tracker_angle_day_frame_witness :
    (40 : ℝ) < 90 ∧
      (tracker_angle ⟨120, 40, 50, 0, 6, 18, 1, 0⟩ ⟨0, 0, 33, 0.35, -10, 60⟩).2.gamma
        = (tracker_angle ⟨120, 40, 50, 0, 6, 18, 1, 0⟩ ⟨0, 0, 33, 0.35, -10, 60⟩).1 :=
  ⟨by norm_num,
    (tracker_angle_day_frame ⟨120, 40, 50, 0, 6, 18, 1, 0⟩ ⟨0, 0, 33, 0.35, -10, 60⟩
      (by norm_num)).1⟩

/-! ## Angle conversions and the C library -/

theorem DEG_TO_RAD_eq : DEG_TO_RAD = Real.pi / 180 := by
  norm_num [DEG_TO_RAD, M_PI, DEG_CIRCLE]

theorem RAD_TO_DEG_eq : RAD_TO_DEG = 180 / Real.pi := by
  norm_num [RAD_TO_DEG, M_PI, DEG_CIRCLE]

theorem deg2rad_eq (x : ℝ) : deg2rad x = x * (Real.pi / 180) := by
  rw [deg2rad, DEG_TO_RAD_eq]

theorem rad2deg_eq (x : ℝ) : rad2deg x = x * (180 / Real.pi) := by
  rw [rad2deg, RAD_TO_DEG_eq]

theorem rad2deg_deg2rad (x : ℝ) : rad2deg (deg2rad x) = x := by
  rw [rad2deg_eq, deg2rad_eq]
  field_simp

theorem deg2rad_rad2deg (x : ℝ) : deg2rad (rad2deg x) = x := by
  rw [rad2deg_eq, deg2rad_eq]
  field_simp

theorem rad2deg_le_rad2deg {x y : ℝ} : rad2deg x ≤ rad2deg y ↔ x ≤ y := by
  have h : (0 : ℝ) < 180 / Real.pi := by positivity
  rw [rad2deg_eq, rad2deg_eq]
  exact mul_le_mul_right h

theorem rad2deg_lt_rad2deg {x y : ℝ} : rad2deg x < rad2deg y ↔ x < y := by
  have h : (0 : ℝ) < 180 / Real.pi := by positivity
  rw [rad2deg_eq, rad2deg_eq]
  exact mul_lt_mul_right h

theorem deg2rad_le_deg2rad {x y : ℝ} : deg2rad x ≤ deg2rad y ↔ x ≤ y := by
  have h : (0 : ℝ) < Real.pi / 180 := by positivity
  rw [deg2rad_eq, deg2rad_eq]
  exact mul_le_mul_right h

theorem deg2rad_lt_deg2rad {x y : ℝ} : deg2rad x < deg2rad y ↔ x < y := by
  have h : (0 : ℝ) < Real.pi / 180 := by positivity
  rw [deg2rad_eq, deg2rad_eq]
  exact mul_lt_mul_right h

theorem rad2deg_pi : rad2deg Real.pi = 180 := by
  rw [rad2deg_eq]
  field_simp

theorem rad2deg_pi_div_two : rad2deg (Real.pi / 2) = 90 := by
  rw [rad2deg_eq]
  field_simp
  ring

theorem rad2deg_zero : rad2deg 0 = 0 := by
  simp [rad2deg]

theorem deg2rad_sub (x y : ℝ) : deg2rad (x - y) = deg2rad x - deg2rad y := by
  simp only [deg2rad]
  ring

theorem rad2deg_sub (x y : ℝ) : rad2deg (x - y) = rad2deg x - rad2deg y := by
  simp only [rad2deg]
  ring

theorem rad2deg_add (x y : ℝ) : rad2deg (x + y) = rad2deg x + rad2deg y := by
  simp only [rad2deg]
  ring

theorem deg2rad_ninety : deg2rad 90 = Real.pi / 2 := by
  rw [deg2rad_eq]
  ring

theorem deg2rad_abs (x : ℝ) : deg2rad |x| = |deg2rad x| := by
  have h : (0 : ℝ) ≤ Real.pi / 180 := by positivity
  rw [deg2rad_eq, deg2rad_eq, abs_mul, abs_of_nonneg h]

/-- With a divisor that is not zero, `atan_div` is `atan` of the quotient. -/
theorem atan_div_of_ne (y : ℝ) {x : ℝ} (hx : x ≠ 0) : atan_div y x = Real.arctan (y / x) := by
  unfold atan_div
  rw [if_neg hx]

/-- The value of `atan_div` lies in `[-π/2, π/2]`. -/
theorem atan_div_mem (y x : ℝ) :
    -(Real.pi / 2) ≤ atan_div y x ∧ atan_div y x ≤ Real.pi / 2 := by
  have hpi := Real.pi_pos
  unfold atan_div
  split_ifs
  · constructor <;> linarith
  · constructor <;> linarith
  · constructor <;> linarith
  · exact ⟨(Real.neg_pi_div_two_lt_arctan _).le, (Real.arctan_lt_pi_div_two _).le⟩

section trunc_lemmas

variable {α : Type} [LinearOrderedField α] [FloorRing α]

/-- Discarding the fractional part never increases the magnitude. -/
theorem abs_trunc_le (x : α) : ((|trunc x| : ℤ) : α) ≤ |x| := by
  unfold trunc
  split_ifs with h
  · have h0 : (0 : ℤ) ≤ ⌊x⌋ := Int.floor_nonneg.mpr h
    rw [abs_of_nonneg h0, abs_of_nonneg h]
    exact Int.floor_le x
  · have hx : x < 0 := not_le.mp h
    have h0 : ⌈x⌉ ≤ (0 : ℤ) := Int.ceil_le.mpr (by simpa using hx.le)
    rw [abs_of_nonpos h0, abs_of_neg hx]
    push_cast
    exact neg_le_neg (Int.le_ceil x)

end trunc_lemmas

/-! ## Properties of `shade_avoidance_angle` -/

/-- The `abs` call is defined on every angle up to 90 degrees in magnitude. -/
theorem c_abs_of_abs_le {x : ℝ} (hx : |x| ≤ 90) :
    c_abs x = some ((|trunc x| : ℤ) : ℝ) := by
  have h1 : ((|trunc x| : ℤ) : ℝ) ≤ 90 := (abs_trunc_le x).trans hx
  have h2 : |trunc x| ≤ 90 := by exact_mod_cast h1
  have h3 := abs_le.mp h2
  unfold c_abs INT_MAX
  rw [if_pos]
  constructor <;> linarith [h3.1, h3.2]

/-- Under `0 < gcr ≤ 1` the `acos` call of `direct_cutoff` has no domain error. -/
theorem c_acos_gcr {g : ℝ} (hg0 : 0 < g) (hg1 : g ≤ 1) :
    c_acos g = some (Real.arccos g) := by
  unfold c_acos
  rw [if_pos]
  constructor <;> linarith

/-- The cutoff is at most 90 degrees. -/
theorem direct_cutoff_le {g : ℝ} (hg0 : 0 < g) : rad2deg (Real.arccos g) ≤ 90 := by
  rw [← rad2deg_pi_div_two, rad2deg_le_rad2deg]
  exact Real.arccos_le_pi_div_two.mpr hg0.le

/-- The argument of `asin` in the backtracking branch is `cos x / gcr`; for an
angle `x` beyond the cutoff and up to 90 degrees it lies in `[0, 1)`. -/
theorem backtrack_arg_mem {x g : ℝ} (hg0 : 0 < g) (hg1 : g ≤ 1)
    (hcut : rad2deg (Real.arccos g) < |x|) (hx : |x| ≤ 90) :
    0 ≤ Real.sin (deg2rad (90.0 - x)) / g ∧ Real.sin (deg2rad (90.0 - x)) / g < 1 := by
  have e : Real.sin (deg2rad (90.0 - x)) = Real.cos (deg2rad |x|) := by
    have e90 : (90.0 : ℝ) = 90 := by norm_num
    rw [e90, deg2rad_sub, deg2rad_ninety, Real.sin_pi_div_two_sub, deg2rad_abs, Real.cos_abs]
  have hle : deg2rad |x| ≤ Real.pi / 2 := by
    rw [← deg2rad_ninety, deg2rad_le_deg2rad]
    exact hx
  have h0 : 0 ≤ deg2rad |x| := by
    rw [deg2rad_eq]
    positivity
  have hlt : Real.arccos g < deg2rad |x| := by
    have := deg2rad_lt_deg2rad.mpr hcut
    rwa [deg2rad_rad2deg] at this
  have hcos : Real.cos (deg2rad |x|) < g := by
    have := Real.cos_lt_cos_of_nonneg_of_le_pi_div_two (Real.arccos_nonneg g) hle hlt
    rwa [Real.cos_arccos (by linarith) hg1] at this
  have hnn : 0 ≤ Real.cos (deg2rad |x|) :=
    Real.cos_nonneg_of_neg_pi_div_two_le_of_le (by linarith [Real.pi_pos]) hle
  rw [e]
  exact ⟨div_nonneg hnn hg0.le, (div_lt_one hg0).mpr hcos⟩

/-- Up to the cutoff the value before the clamp is the ideal angle itself: the
truncation inside `abs` can only make the left side of the test smaller. -/
theorem shade_avoidance_raw_direct (x : ℝ) (tracker : tracker_t)
    (hg0 : 0 < tracker.gcr) (hg1 : tracker.gcr ≤ 1)
    (hx : |x| ≤ rad2deg (Real.arccos tracker.gcr)) :
    shade_avoidance_raw x tracker = some x := by
  have hx90 : |x| ≤ 90 := hx.trans (direct_cutoff_le hg0)
  unfold shade_avoidance_raw
  rw [c_abs_of_abs_le hx90, c_acos_gcr hg0 hg1]
  simp only [Option.map_some', le_nan]
  rw [if_pos ((abs_trunc_le x).trans hx)]

/-- The range-of-motion clamp at the end of `shade_avoidance_angle`. -/
theorem shade_avoidance_angle_of_raw {x a : ℝ} {tracker : tracker_t}
    (h : shade_avoidance_raw x tracker = some a) :
    shade_avoidance_angle x tracker
      = some (if a < -tracker.rom then -tracker.rom
          else if a > tracker.rom then tracker.rom else a) := by
  unfold shade_avoidance_angle
  rw [h]
  simp only []
  split_ifs <;> rfl

/-- The value `3π/8`, that is 67.5 degrees, is below the cutoff of a tracker
with `gcr = 0.35`. -/
theorem cutoff_main_tracker : (67.5 : ℝ) ≤ rad2deg (Real.arccos 0.35) := by
  have hs2 : Real.sqrt 2 ≤ 1.51 := by
    rw [Real.sqrt_le_left (by norm_num)]
    norm_num
  have hsin : (0.35 : ℝ) ≤ Real.sin (Real.pi / 8) := by
    rw [Real.sin_pi_div_eight, le_div_iff₀ (by norm_num)]
    apply Real.le_sqrt_of_sq_le
    norm_num
    linarith
  have hasin : Real.arcsin 0.35 ≤ Real.pi / 8 := by
    rw [Real.arcsin_le_iff_le_sin ⟨by norm_num, by norm_num⟩
      ⟨by linarith [Real.pi_pos], by linarith [Real.pi_pos]⟩]
    exact hsin
  have h : deg2rad 67.5 ≤ Real.arccos 0.35 := by
    rw [Real.arccos_eq_pi_div_two_sub_arcsin, deg2rad_eq]
    linarith [Real.pi_pos]
  have := rad2deg_le_rad2deg.mpr h
  rwa [rad2deg_deg2rad] at this

/-- C2 (as the code has it): for a tracker with `0 < gcr ≤ 1` and `rom > 0`
and an ideal angle `x` with `|x| ≤ rad2deg(acos(gcr))`, `shade_avoidance_angle`
returns `x` clamped to `[-rom, rom]`: `-rom` when `x < -rom`, `rom` when
`x > rom`, and `x` itself when `|x| ≤ rom`. -/
theorem shade_avoidance_angle_direct (x : ℝ) (tracker : tracker_t)
    (hg0 : 0 < tracker.gcr) (hg1 : tracker.gcr ≤ 1) (_hr : 0 < tracker.rom)
    (hx : |x| ≤ rad2deg (Real.arccos tracker.gcr)) :
    shade_avoidance_angle x tracker
        = some (if x < -tracker.rom then -tracker.rom
            else if x > tracker.rom then tracker.rom else x)
      ∧ (|x| ≤ tracker.rom → shade_avoidance_angle x tracker = some x) := by
  have h := shade_avoidance_angle_of_raw (shade_avoidance_raw_direct x tracker hg0 hg1 hx)
  refine ⟨h, fun hrom => ?_⟩
  have hb := abs_le.mp hrom
  rw [h, if_neg (not_lt.mpr hb.1), if_neg (not_lt.mpr hb.2)]

/-- Witness for C2: the tracker of `main.c` at 67.5 degrees, below the cutoff
and above the range of motion. -/
theorem shade_avoidance_angle_direct_witness :
    |(67.5 : ℝ)| ≤ rad2deg (Real.arccos 0.35)
      ∧ shade_avoidance_angle 67.5 ⟨0, 0, 0, 0.35, -10, 60⟩
        = some (if (67.5 : ℝ) < -60 then -60 else if (67.5 : ℝ) > 60 then 60 else 67.5) :=
  ⟨by rw [abs_of_nonneg (by norm_num)]; exact cutoff_main_tracker,
    (shade_avoidance_angle_direct 67.5 ⟨0, 0, 0, 0.35, -10, 60⟩ (by norm_num) (by norm_num)
      (by norm_num) (by rw [abs_of_nonneg (by norm_num)]; exact cutoff_main_tracker)).1⟩

/-- C2 fails as stated: the tracker of `main.c` (`gcr = 0.35`, `rom = 60`) at
the ideal angle 67.5, which is within the cutoff `rad2deg(acos(0.35))`, returns
60 and not 67.5. -/
theorem shade_avoidance_angle_direct_clamped :
    (0 : ℝ) < 0.35 ∧ (0.35 : ℝ) ≤ 1 ∧ (0 : ℝ) < 60
      ∧ |(67.5 : ℝ)| ≤ rad2deg (Real.arccos 0.35)
      ∧ shade_avoidance_angle 67.5 ⟨0, 0, 0, 0.35, -10, 60⟩ = some 60
      ∧ shade_avoidance_angle 67.5 ⟨0, 0, 0, 0.35, -10, 60⟩ ≠ some 67.5 := by
  have hx : |(67.5 : ℝ)| ≤ rad2deg (Real.arccos 0.35) := by
    rw [abs_of_nonneg (by norm_num)]
    exact cutoff_main_tracker
  have h := shade_avoidance_angle_of_raw
    (shade_avoidance_raw_direct 67.5 ⟨0, 0, 0, 0.35, -10, 60⟩ (by norm_num) (by norm_num) hx)
  have h60 : shade_avoidance_angle 67.5 ⟨0, 0, 0, 0.35, -10, 60⟩ = some 60 := by
    rw [h, if_neg (by norm_num), if_pos (by norm_num)]
  refine ⟨by norm_num, by norm_num, by norm_num, hx, h60, ?_⟩
  rw [h60]
  norm_num

/-! ## Properties of `julian` and of the time variable -/

/-- Between 1950 and 2050 the rule `year % 4 == 0` of `julian` is the Gregorian
rule: the only century year in the range, 2000, is a leap year. -/
theorem gregorian_leap_iff {year : ℕ} (h1 : 1950 ≤ year) (h2 : year ≤ 2050) :
    gregorian_leap year ↔ year % 4 = 0 := by
  unfold gregorian_leap
  omega

/-- The loop of `julian` for each month up to 13: the days before the month in
a year without a leap day. -/
theorem julian_loop_eq (month : ℕ) (h : month ≤ 13) :
    julian_loop (month - 1) 1 0
      = some (((List.range (month - 1)).map fun i => nday.getD i 0).sum) := by
  interval_cases month <;> rfl

/-- The call to `julian` is defined for every month up to 13. -/
theorem julian_defined (inp : solarpos_inputs_t) (h : inp.month ≤ 13) :
    ∃ jday0, julian inp = some jday0 ∧ 0 ≤ jday0 ∧ jday0 ≤ 366 + inp.day := by
  unfold julian
  rw [julian_loop_eq inp.month h]
  have hm : inp.month ≤ 13 := h
  generalize inp.month = month at hm ⊢
  interval_cases month <;> simp [nday, List.range, List.range.loop] <;> omega

/-- C9: for every year from 1950 to 2050 and every valid calendar date (month
1 to 12, day within the month, February having 29 days exactly in Gregorian
leap years) `julian` returns the ordinal day of the year: the lengths of all
earlier months plus the day of the month.  So 1 January gives 1, and 31
December gives 366 in a leap year and 365 otherwise. -/
theorem julian_ordinal_day (inp : solarpos_inputs_t)
    (hy1 : 1950 ≤ inp.year) (hy2 : inp.year ≤ 2050)
    (hm1 : 1 ≤ inp.month) (hm2 : inp.month ≤ 12)
    (_hd1 : 1 ≤ inp.day) (_hd2 : inp.day ≤ gregorian_month_length inp.year inp.month) :
    julian inp = some (gregorian_ordinal_day inp.year inp.month inp.day : ℤ)
      ∧ (inp.month = 1 → inp.day = 1 → julian inp = some 1)
      ∧ (inp.month = 12 → inp.day = 31 →
          julian inp = some (if gregorian_leap inp.year then 366 else 365)) := by
  have hleap := gregorian_leap_iff hy1 hy2
  have main : julian inp = some (gregorian_ordinal_day inp.year inp.month inp.day : ℤ) := by
    unfold julian gregorian_ordinal_day
    rw [julian_loop_eq inp.month (by omega)]
    generalize inp.month = month at hm1 hm2 ⊢
    interval_cases month <;>
      by_cases h4 : inp.year % 4 = 0 <;>
      simp [nday, List.range, List.range.loop, gregorian_month_length, hleap, h4]
  refine ⟨main, fun h1 hd => ?_, fun h12 hd => ?_⟩
  · rw [main, h1, hd]
    rfl
  · rw [main, h12, hd]
    by_cases h4 : inp.year % 4 = 0 <;>
      simp [gregorian_ordinal_day, List.range, List.range.loop, gregorian_month_length,
        hleap, h4]

/-- Witness for C9: 29 February 2000 is day 60. -/
theorem julian_ordinal_day_witness :
    julian ⟨2000, 2, 29, 12, 0, 0, 0, 0⟩ = some (gregorian_ordinal_day 2000 2 29 : ℤ)
      ∧ gregorian_ordinal_day 2000 2 29 = 60 :=
  ⟨(julian_ordinal_day ⟨2000, 2, 29, 12, 0, 0, 0, 0⟩ (by norm_num) (by norm_num)
      (by norm_num) (by norm_num) (by norm_num) (by decide)).1, by decide⟩

/-- C10: the time variable is referenced to noon 1 Jan 2000 UTC.  For every
time zone from -12 to 11, the input 1 January 2000, `hour = 12 + timezone`,
`minute = 0` gives `jd = 51545.0` and `time = 0` exactly, at any latitude and
longitude. -/
theorem time_reference (tz : ℤ) (h1 : -12 ≤ tz) (h2 : tz ≤ 11) (latitude longitude : ℝ) :
    julian ⟨2000, 1, 1, (12 + tz).toNat, 0, tz, latitude, longitude⟩ = some 1
      ∧ solar_position_calc.jd ⟨2000, 1, 1, (12 + tz).toNat, 0, tz, latitude, longitude⟩ 1
          = 51545.0
      ∧ solar_position_calc.time ⟨2000, 1, 1, (12 + tz).toNat, 0, tz, latitude, longitude⟩ 1
          = 0 := by
  have hz : solar_position_calc.zulu0
      ⟨2000, 1, 1, (12 + tz).toNat, 0, tz, latitude, longitude⟩ = 12 := by
    have hc : (((12 + tz).toNat : ℤ) : ℚ) = ((12 + tz : ℤ) : ℚ) := by
      rw [Int.toNat_of_nonneg (by omega)]
    simp only [solar_position_calc.zulu0]
    rw [← Int.cast_natCast, hc]
    push_cast
    ring
  have hjd : solar_position_calc.jd
      ⟨2000, 1, 1, (12 + tz).toNat, 0, tz, latitude, longitude⟩ 1 = 51545.0 := by
    simp only [solar_position_calc.jd, solar_position_calc.jday, solar_position_calc.zulu,
      solar_position_calc.leap, solar_position_calc.delta, hz]
    norm_num [Int.tdiv]
  refine ⟨rfl, hjd, ?_⟩
  rw [solar_position_calc.time, hjd]
  norm_num

/-- Witness for C10: Seattle's time zone, -8, where noon UTC is 04:00 local
time. -/
theorem time_reference_witness :
    solar_position_calc.time ⟨2000, 1, 1, 4, 0, -8, 47.608358, -122.323175⟩ 1 = 0 :=
  (time_reference (-8) (by norm_num) (by norm_num) 47.608358 (-122.323175)).2.2

/-! ## Properties of `solar_position_calc` -/

/-- The function `solar_position_calc` returns its struct whenever the call to
`julian` is defined, so for every month up to 13. -/
theorem solar_position_calc_defined (inp : solarpos_inputs_t) (h : inp.month ≤ 13) :
    ∃ jday0, julian inp = some jday0
      ∧ solar_position_calc inp = some (solar_position_calc.result inp jday0) := by
  obtain ⟨jday0, hj, -⟩ := julian_defined inp h
  exact ⟨jday0, hj, by rw [solar_position_calc, hj]; rfl⟩

/-- Whatever `solar_position_calc` returns is the struct built from the value
of `julian`. -/
theorem solar_position_calc_eq_some {inp : solarpos_inputs_t} {sp : solarpos_t}
    (h : solar_position_calc inp = some sp) :
    ∃ jday0, julian inp = some jday0 ∧ sp = solar_position_calc.result inp jday0 := by
  unfold solar_position_calc at h
  cases hj : julian inp with
  | none => rw [hj] at h; cases h
  | some jday0 =>
    rw [hj] at h
    exact ⟨jday0, rfl, (Option.some.inj h).symm⟩

/-- The uncorrected elevation lies in `[-π/2, π/2]`. -/
theorem elv_mem (inp : solarpos_inputs_t) (jday0 : ℤ) :
    -(Real.pi / 2) ≤ solar_position_calc.elv inp jday0
      ∧ solar_position_calc.elv inp jday0 ≤ Real.pi / 2 := by
  unfold solar_position_calc.elv M_PI
  split_ifs
  · constructor <;> linarith [Real.pi_pos]
  · constructor <;> linarith [Real.pi_pos]
  · exact ⟨Real.neg_pi_div_two_le_arcsin _, Real.arcsin_le_pi_div_two _⟩

/-- The uncorrected elevation in degrees lies in `[-90, 90]`. -/
theorem elv_deg_mem (inp : solarpos_inputs_t) (jday0 : ℤ) :
    -90 ≤ solar_position_calc.elv_deg inp jday0 ∧ solar_position_calc.elv_deg inp jday0 ≤ 90 := by
  have h := elv_mem inp jday0
  have h1 := rad2deg_le_rad2deg.mpr h.1
  have h2 := rad2deg_le_rad2deg.mpr h.2
  rw [rad2deg_pi_div_two] at h2
  have e : rad2deg (-(Real.pi / 2)) = -90 := by
    rw [rad2deg_eq]
    field_simp
    ring
  rw [e] at h1
  exact ⟨h1, h2⟩

/-- The denominator of the refraction term has no real root. -/
theorem refrac_den_pos (e : ℝ) : 0 < 1.0 + 0.505 * e + 0.0845 * e ^ 2 := by
  nlinarith [sq_nonneg (0.169 * e + 0.505)]

/-- The refraction term is positive. -/
theorem refrac_of_pos (e : ℝ) : 0 < solar_position_calc.refrac_of e := by
  unfold solar_position_calc.refrac_of
  split_ifs with h
  · apply div_pos _ (refrac_den_pos e)
    have : (-0.56 : ℝ) < e := h
    nlinarith [sq_nonneg e]
  · norm_num

/-- The corrected elevation, returned in degrees: the uncorrected elevation
plus the refraction term, capped at 90. -/
theorem elevation_eq (inp : solarpos_inputs_t) (jday0 : ℤ) :
    (solar_position_calc.result inp jday0).elevation
      = if solar_position_calc.elv_deg inp jday0 + solar_position_calc.refrac inp jday0 > 90
        then 90
        else solar_position_calc.elv_deg inp jday0 + solar_position_calc.refrac inp jday0 := by
  simp only [solar_position_calc.result, solar_position_calc.elv_corrected]
  have e90 : (90.0 : ℝ) = 90 := by norm_num
  rw [e90]
  split_ifs <;> exact rad2deg_deg2rad _

/-- In exact arithmetic the zenith returned is 90 degrees less the elevation
returned: `rad2deg` distributes over the difference `0.5 * M_PI - elv`.  (The
two fields of the C code are rounded separately and need not agree in the
last place.) -/
theorem zenith_eq (inp : solarpos_inputs_t) (jday0 : ℤ) :
    (solar_position_calc.result inp jday0).zenith
      = 90 - (solar_position_calc.result inp jday0).elevation := by
  simp only [solar_position_calc.result]
  rw [rad2deg_sub]
  have e : rad2deg (0.5 * M_PI) = 90 := by
    rw [← rad2deg_pi_div_two, M_PI]
    congr 1
    ring
  rw [e]

/-- C7: whenever `solar_position_calc` returns, the refraction-corrected
elevation is at most 90 degrees and the zenith lies in `[0, 180]` degrees; and
it returns for every input whose month is at most 13 (beyond that `julian`
reads past the end of `nday`). -/
theorem solar_position_elevation_zenith_range (inp : solarpos_inputs_t) :
    (∀ sp, solar_position_calc inp = some sp →
        sp.elevation ≤ 90 ∧ 0 ≤ sp.zenith ∧ sp.zenith ≤ 180)
      ∧ (inp.month ≤ 13 → ∃ sp, solar_position_calc inp = some sp) := by
  constructor
  · intro sp hsp
    obtain ⟨jday0, -, rfl⟩ := solar_position_calc_eq_some hsp
    have hm := elv_deg_mem inp jday0
    have hr : 0 < solar_position_calc.refrac inp jday0 := refrac_of_pos _
    have hle : (solar_position_calc.result inp jday0).elevation ≤ 90 := by
      rw [elevation_eq]
      split_ifs with h
      · exact le_refl _
      · exact not_lt.mp h
    have hge : -90 ≤ (solar_position_calc.result inp jday0).elevation := by
      rw [elevation_eq]
      split_ifs with h
      · norm_num
      · linarith [hm.1]
    rw [zenith_eq]
    exact ⟨hle, by linarith, by linarith⟩
  · intro h
    obtain ⟨jday0, -, hs⟩ := solar_position_calc_defined inp h
    exact ⟨_, hs⟩

/-- Witness for C7: Seattle at noon on 21 June 2017. -/
theorem solar_position_elevation_zenith_range_witness :
    ∃ sp, solar_position_calc ⟨2017, 6, 21, 12, 0, -8, 47.608358, -122.323175⟩ = some sp
      ∧ sp.elevation ≤ 90 ∧ 0 ≤ sp.zenith ∧ sp.zenith ≤ 180 := by
  have h := solar_position_elevation_zenith_range
    ⟨2017, 6, 21, 12, 0, -8, 47.608358, -122.323175⟩
  obtain ⟨sp, hsp⟩ := h.2 (by norm_num)
  exact ⟨sp, hsp, h.1 sp hsp⟩

/-- The argument of `asin` in the declination lies in `[-1, 1]`: the call has
no domain error. -/
theorem dec_arg_mem (inp : solarpos_inputs_t) (jday0 : ℤ) :
    -1 ≤ solar_position_calc.dec_arg inp jday0 ∧ solar_position_calc.dec_arg inp jday0 ≤ 1 := by
  have h : |solar_position_calc.dec_arg inp jday0| ≤ 1 := by
    unfold solar_position_calc.dec_arg
    rw [abs_mul]
    exact mul_le_one₀ (Real.abs_sin_le_one _) (abs_nonneg _) (Real.abs_sin_le_one _)
  exact abs_le.mp h

/-- The argument of `asin` in the elevation is the scalar product of two unit
vectors; with the quantity that becomes the numerator of the azimuth and the
east-west component it makes up a sum of squares equal to one. -/
theorem arg_elv_sq (a b p q c s : ℝ) (hab : a ^ 2 + b ^ 2 = 1) (hpq : p ^ 2 + q ^ 2 = 1)
    (hcs : c ^ 2 + s ^ 2 = 1) :
    (a * p + b * q * c) ^ 2 + (b * c * p - a * q) ^ 2 + (b * s) ^ 2 = 1 := by
  have e : (a * p + b * q * c) ^ 2 + (b * c * p - a * q) ^ 2 + (b * s) ^ 2
      = a ^ 2 * (p ^ 2 + q ^ 2) + b ^ 2 * (c ^ 2 * (p ^ 2 + q ^ 2) + s ^ 2) := by ring
  rw [e, hpq, mul_one, mul_one, hcs, mul_one, hab]

/-- The argument of `asin` in the elevation lies in `[-1, 1]`, so neither
clipping branch is taken in exact arithmetic. -/
theorem arg_elv_mem (inp : solarpos_inputs_t) (jday0 : ℤ) :
    -1 ≤ solar_position_calc.arg_elv inp jday0 ∧ solar_position_calc.arg_elv inp jday0 ≤ 1 := by
  have h := arg_elv_sq (Real.sin (solar_position_calc.dec inp jday0))
    (Real.cos (solar_position_calc.dec inp jday0)) (Real.sin (solar_position_calc.latrad inp))
    (Real.cos (solar_position_calc.latrad inp)) (Real.cos (solar_position_calc.ha inp jday0))
    (Real.sin (solar_position_calc.ha inp jday0)) (Real.sin_sq_add_cos_sq _)
    (Real.sin_sq_add_cos_sq _) (Real.cos_sq_add_sin_sq _)
  have h1 : solar_position_calc.arg_elv inp jday0 ^ 2 ≤ 1 := by
    unfold solar_position_calc.arg_elv
    nlinarith [sq_nonneg (Real.cos (solar_position_calc.dec inp jday0)
        * Real.cos (solar_position_calc.ha inp jday0)
        * Real.sin (solar_position_calc.latrad inp)
        - Real.sin (solar_position_calc.dec inp jday0)
        * Real.cos (solar_position_calc.latrad inp)),
      sq_nonneg (Real.cos (solar_position_calc.dec inp jday0)
        * Real.sin (solar_position_calc.ha inp jday0))]
  exact abs_le.mp (abs_le_one_iff_mul_self_le_one.mpr (by nlinarith))

/-- The uncorrected elevation is the arc sine of `arg`. -/
theorem elv_eq (inp : solarpos_inputs_t) (jday0 : ℤ) :
    solar_position_calc.elv inp jday0 = Real.arcsin (solar_position_calc.arg_elv inp jday0) := by
  have h := arg_elv_mem inp jday0
  unfold solar_position_calc.elv
  rw [if_neg (by norm_num; exact h.2), if_neg (by norm_num; exact h.1)]

/-- At a latitude whose cosine is zero (a pole of the Earth) the azimuth
quotient is `0.0 / 0.0`: the elevation is plus or minus the declination, whose
cosine is not zero, and the dividend `sin(elv) sin(latrad) - sin(dec)`
vanishes together with the divisor. -/
theorem azm_nan_of_cos_latrad_eq_zero (inp : solarpos_inputs_t) (jday0 : ℤ)
    (hb : 0 < Real.cos (solar_position_calc.dec inp jday0))
    (hq : Real.cos (solar_position_calc.latrad inp) = 0) :
    solar_position_calc.azm_nan inp jday0 := by
  have hmem := arg_elv_mem inp jday0
  have hsin : Real.sin (solar_position_calc.elv inp jday0)
      = solar_position_calc.arg_elv inp jday0 := by
    rw [elv_eq, Real.sin_arcsin hmem.1 hmem.2]
  have hp : Real.sin (solar_position_calc.latrad inp) ^ 2 = 1 := by
    have := Real.sin_sq_add_cos_sq (solar_position_calc.latrad inp)
    rw [hq] at this
    linarith
  have harg : solar_position_calc.arg_elv inp jday0
      = Real.sin (solar_position_calc.dec inp jday0)
        * Real.sin (solar_position_calc.latrad inp) := by
    unfold solar_position_calc.arg_elv
    rw [hq]
    ring
  have hC : Real.cos (solar_position_calc.elv inp jday0) ^ 2
      = Real.cos (solar_position_calc.dec inp jday0) ^ 2 := by
    have h1 := Real.sin_sq_add_cos_sq (solar_position_calc.elv inp jday0)
    have h2 := Real.sin_sq_add_cos_sq (solar_position_calc.dec inp jday0)
    rw [hsin, harg, mul_pow, hp] at h1
    linarith
  refine ⟨?_, ?_, ?_⟩
  · intro h0
    have h00 : Real.cos (solar_position_calc.elv inp jday0) = 0 := by
      rw [h0]
      norm_num
    rw [h00] at hC
    have : 0 < Real.cos (solar_position_calc.dec inp jday0) ^ 2 := by positivity
    rw [← hC] at this
    norm_num at this
  · rw [hsin, harg]
    have : Real.sin (solar_position_calc.dec inp jday0)
        * Real.sin (solar_position_calc.latrad inp) * Real.sin (solar_position_calc.latrad inp)
        = Real.sin (solar_position_calc.dec inp jday0)
          * Real.sin (solar_position_calc.latrad inp) ^ 2 := by ring
    rw [this, hp]
    ring
  · rw [hq, mul_zero]

/-- The azimuth quotient is `0.0 / 0.0` at the poles of the Earth and nowhere
else. -/
theorem azm_nan_iff (inp : solarpos_inputs_t) (jday0 : ℤ)
    (hb : 0 < Real.cos (solar_position_calc.dec inp jday0)) :
    solar_position_calc.azm_nan inp jday0 ↔ Real.cos (solar_position_calc.latrad inp) = 0 := by
  constructor
  · intro h
    have hC : Real.cos (solar_position_calc.elv inp jday0) ≠ 0 := by
      intro h0
      exact h.1 (by rw [h0]; norm_num)
    exact (mul_eq_zero.mp h.2.2).resolve_left hC
  · exact azm_nan_of_cos_latrad_eq_zero inp jday0 hb

/-- C12: `deg2rad` and `rad2deg` are mutual inverses, exactly over the reals:
`deg2rad (rad2deg x) = x` and `rad2deg (deg2rad x) = x` for every `x`. -/
theorem deg2rad_rad2deg_inverse (x : ℝ) :
    deg2rad (rad2deg x) = x ∧ rad2deg (deg2rad x) = x :=
  ⟨deg2rad_rad2deg x, rad2deg_deg2rad x⟩

/-! ## Properties of `tracker_incident` -/

/-- The function `acos` is decreasing. -/
theorem arccos_le_arccos_of_le {x y : ℝ} (h : x ≤ y) : Real.arccos y ≤ Real.arccos x := by
  rw [Real.arccos_eq_pi_div_two_sub_arcsin, Real.arccos_eq_pi_div_two_sub_arcsin]
  linarith [Real.monotone_arcsin h]

/-- The panel normal is a unit vector. -/
theorem tracker_normal_unit (alpha beta gamma : ℝ) :
    tracker_incident.tracker_x alpha beta gamma ^ 2
      + tracker_incident.tracker_y alpha beta gamma ^ 2
      + tracker_incident.tracker_z beta gamma ^ 2 = 1 := by
  unfold tracker_incident.tracker_x tracker_incident.tracker_y tracker_incident.tracker_z
  have ha := Real.sin_sq_add_cos_sq alpha
  have hb := Real.sin_sq_add_cos_sq beta
  have hg := Real.sin_sq_add_cos_sq gamma
  have e : (Real.cos gamma * Real.sin beta * Real.cos alpha + -Real.sin gamma * -Real.sin alpha) ^ 2
      + (Real.cos gamma * Real.sin beta * Real.sin alpha + -Real.sin gamma * Real.cos alpha) ^ 2
      + (Real.cos gamma * Real.cos beta) ^ 2
      = Real.cos gamma ^ 2 * (Real.sin beta ^ 2 * (Real.sin alpha ^ 2 + Real.cos alpha ^ 2)
          + Real.cos beta ^ 2)
        + Real.sin gamma ^ 2 * (Real.sin alpha ^ 2 + Real.cos alpha ^ 2) := by ring
  rw [e, ha, mul_one, hb, mul_one, mul_one]
  linarith

/-- The sun vector is a unit vector. -/
theorem sun_unit (theta phi : ℝ) :
    tracker_incident.sun_x theta phi ^ 2 + tracker_incident.sun_y theta phi ^ 2
      + tracker_incident.sun_z phi ^ 2 = 1 := by
  unfold tracker_incident.sun_x tracker_incident.sun_y tracker_incident.sun_z
  have ht := Real.sin_sq_add_cos_sq theta
  have hp := Real.sin_sq_add_cos_sq phi
  have e : (Real.cos theta * Real.sin phi) ^ 2 + (Real.sin theta * Real.sin phi) ^ 2
      + Real.cos phi ^ 2
      = Real.sin phi ^ 2 * (Real.sin theta ^ 2 + Real.cos theta ^ 2) + Real.cos phi ^ 2 := by
    ring
  rw [e, ht, mul_one, hp]

/-- The dot product of two unit vectors lies in `[-1, 1]`. -/
theorem dot_unit_mem {a b c x y z : ℝ} (h1 : a ^ 2 + b ^ 2 + c ^ 2 = 1)
    (h2 : x ^ 2 + y ^ 2 + z ^ 2 = 1) :
    -1 ≤ x * a + y * b + z * c ∧ x * a + y * b + z * c ≤ 1 := by
  constructor
  · nlinarith [sq_nonneg (x + a), sq_nonneg (y + b), sq_nonneg (z + c)]
  · nlinarith [sq_nonneg (x - a), sq_nonneg (y - b), sq_nonneg (z - c)]

/-- In exact arithmetic the argument of `acos` in `tracker_incident`, a dot
product of two unit vectors, lies in `[-1, 1]`; it reaches both ends. -/
theorem dot_mem (tracker : tracker_t) (solarpos : solarpos_t) :
    -1 ≤ tracker_incident.dot tracker solarpos ∧ tracker_incident.dot tracker solarpos ≤ 1 := by
  unfold tracker_incident.dot
  exact dot_unit_mem (tracker_normal_unit _ _ _) (sun_unit _ _)

/-- The value of `tracker_incident` in exact arithmetic, where the argument of
`acos` stays inside its domain. -/
theorem tracker_incident_eq (tracker : tracker_t) (solarpos : solarpos_t) :
    tracker_incident tracker solarpos
      = some (rad2deg (Real.arccos (tracker_incident.dot tracker solarpos))) := by
  have h := dot_mem tracker solarpos
  unfold tracker_incident c_acos
  rw [if_pos h]
  rfl

/-- The value of `acos` beyond 1 is a domain error. -/
theorem c_acos_none_of_gt {x : ℝ} (h : 1 < x) : c_acos x = none := by
  unfold c_acos
  rw [if_neg (fun hc => absurd hc.2 (not_le.mpr h))]

/-- The angle 270 degrees, the `theta` of a sun due east, in radians. -/
theorem sin_cos_theta_east :
    Real.sin (deg2rad (360 - 90)) = -1 ∧ Real.cos (deg2rad (360 - 90)) = 0 := by
  have e : deg2rad (360 - 90) = Real.pi + Real.pi / 2 := by
    rw [deg2rad_eq]
    ring
  rw [e, Real.sin_add_pi_div_two, Real.cos_add_pi_div_two, Real.cos_pi, Real.sin_pi, neg_zero]
  exact ⟨rfl, rfl⟩

/-- C11: the tracker of `main.c` (yaw 0, pitch 0) at a roll of 8 degrees, under
a sun at azimuth 90 and zenith 8 degrees, faces the sun.  The argument that
`tracker_incident` passes to `acos` is then exactly 1, the end of the domain of
`acos`, and it is passed unclipped: any excess over 1 is a domain error.  The
sum as the C code rounds it is `1.0000000000000002`, so the code returns NaN
and not an angle in `[0, 180]`. -/
theorem tracker_incident_unclipped :
    tracker_incident.dot ⟨0, 0, 8, 0.35, -10, 60⟩ ⟨90, 8, 82, 0, 6, 18, 1, 0⟩ = 1
      ∧ ∀ e : ℝ, 0 < e →
        c_acos (tracker_incident.dot ⟨0, 0, 8, 0.35, -10, 60⟩ ⟨90, 8, 82, 0, 6, 18, 1, 0⟩ + e)
          = none := by
  have h0 : deg2rad 0 = 0 := by simp [deg2rad]
  have hd : tracker_incident.dot ⟨0, 0, 8, 0.35, -10, 60⟩ ⟨90, 8, 82, 0, 6, 18, 1, 0⟩ = 1 := by
    simp only [tracker_incident.dot, tracker_incident.tracker_x, tracker_incident.tracker_y,
      tracker_incident.tracker_z, tracker_incident.sun_x, tracker_incident.sun_y,
      tracker_incident.sun_z]
    rw [h0, sin_cos_theta_east.1, sin_cos_theta_east.2, Real.sin_zero, Real.cos_zero]
    have := Real.sin_sq_add_cos_sq (deg2rad 8)
    linarith
  refine ⟨hd, fun e he => ?_⟩
  rw [hd]
  exact c_acos_none_of_gt (by linarith)

/-! ## The ideal angle -/

/-- The angle `tracker_angle` computes in daylight, in radians: `-atan(A / B)`,
negated when `atan2(A, B)` is outside `[-π/2, π/2]`. -/
theorem tracker_angle_day_eq (solarpos : solarpos_t) (tracker : tracker_t)
    (h : solarpos.zenith < 90) :
    ∃ c : ℝ, (tracker_angle solarpos tracker).1 = rad2deg c
      ∧ (tracker_angle solarpos tracker).2 = { tracker with gamma := rad2deg c }
      ∧ (c = -atan_div (tracker_angle_A (deg2rad tracker.alpha)
              (deg2rad (360 - solarpos.azimuth)) (deg2rad solarpos.zenith))
            (tracker_angle_B (deg2rad tracker.alpha) (deg2rad tracker.beta)
              (deg2rad (360 - solarpos.azimuth)) (deg2rad solarpos.zenith))
        ∨ c = atan_div (tracker_angle_A (deg2rad tracker.alpha)
              (deg2rad (360 - solarpos.azimuth)) (deg2rad solarpos.zenith))
            (tracker_angle_B (deg2rad tracker.alpha) (deg2rad tracker.beta)
              (deg2rad (360 - solarpos.azimuth)) (deg2rad solarpos.zenith))) := by
  have h90 : ¬ solarpos.zenith ≥ 90.0 := by norm_num; exact h
  unfold tracker_angle
  rw [if_neg h90]
  simp only []
  split_ifs
  · exact ⟨_, rfl, rfl, Or.inr (neg_neg _)⟩
  · exact ⟨_, rfl, rfl, Or.inl rfl⟩

/-- With pitch 0 the local `B` is the cosine of the zenith, positive for a
zenith strictly between -90 and 90 degrees. -/
theorem tracker_angle_B_pos_of_flat (alpha theta : ℝ) {zenith : ℝ} (h1 : -90 < zenith)
    (h2 : zenith < 90) :
    0 < tracker_angle_B alpha (deg2rad 0) theta (deg2rad zenith) := by
  have h0 : deg2rad 0 = 0 := by simp [deg2rad]
  unfold tracker_angle_B
  rw [h0, Real.sin_zero, Real.cos_zero]
  have hz1 : -(Real.pi / 2) < deg2rad zenith := by
    have e : -(Real.pi / 2) = deg2rad (-90) := by
      rw [deg2rad_eq]
      ring
    rw [e, deg2rad_lt_deg2rad]
    exact h1
  have hz2 : deg2rad zenith < Real.pi / 2 := by
    rw [← deg2rad_ninety, deg2rad_lt_deg2rad]
    exact h2
  have := Real.cos_pos_of_mem_Ioo ⟨hz1, hz2⟩
  linarith

/-- C17, amended: when the sun's zenith is below 90 degrees and the locals `A`
and `B` are not both zero (the quotient `A / B` is not `0.0 / 0.0`), the angle
that `tracker_angle` returns, and stores in `gamma`, lies in `[-90, 90]`
degrees. -/
theorem tracker_angle_range (solarpos : solarpos_t) (tracker : tracker_t)
    (h : solarpos.zenith < 90) (_hn : ¬ tracker_angle_nan solarpos tracker) :
    -90 ≤ (tracker_angle solarpos tracker).1 ∧ (tracker_angle solarpos tracker).1 ≤ 90
      ∧ (tracker_angle solarpos tracker).2.gamma = (tracker_angle solarpos tracker).1 := by
  obtain ⟨c, h1, h2, hc⟩ := tracker_angle_day_eq solarpos tracker h
  rw [h1, h2]
  have hm := atan_div_mem (tracker_angle_A (deg2rad tracker.alpha)
      (deg2rad (360 - solarpos.azimuth)) (deg2rad solarpos.zenith))
    (tracker_angle_B (deg2rad tracker.alpha) (deg2rad tracker.beta)
      (deg2rad (360 - solarpos.azimuth)) (deg2rad solarpos.zenith))
  have hb : -(Real.pi / 2) ≤ c ∧ c ≤ Real.pi / 2 := by
    rcases hc with hc | hc <;> rw [hc]
    · constructor <;> linarith [hm.1, hm.2]
    · exact hm
  have e : rad2deg (-(Real.pi / 2)) = -90 := by
    rw [rad2deg_eq]
    field_simp
    ring
  refine ⟨?_, ?_, rfl⟩
  · rw [← e, rad2deg_le_rad2deg]
    exact hb.1
  · rw [← rad2deg_pi_div_two, rad2deg_le_rad2deg]
    exact hb.2

/-- Witness for C17: sun at zenith 40 degrees, azimuth 120 degrees, the
tracker of `main.c`, whose local `B` is `cos 40° > 0`. -/
theorem tracker_angle_range_witness :
    -90 ≤ (tracker_angle ⟨120, 40, 50, 0, 6, 18, 1, 0⟩ ⟨0, 0, 33, 0.35, -10, 60⟩).1
      ∧ (tracker_angle ⟨120, 40, 50, 0, 6, 18, 1, 0⟩ ⟨0, 0, 33, 0.35, -10, 60⟩).1 ≤ 90 :=
  have h := tracker_angle_range ⟨120, 40, 50, 0, 6, 18, 1, 0⟩ ⟨0, 0, 33, 0.35, -10, 60⟩
    (by norm_num)
    (fun hn => absurd hn.2.2
      (ne_of_gt (@tracker_angle_B_pos_of_flat _ _ 40 (by norm_num) (by norm_num))))
  ⟨h.1, h.2.1⟩

/-- C17 fails as stated: a tracker with yaw 0 and pitch -75 degrees under a sun
at azimuth 360 and zenith 15 degrees (above the horizon, along the tracker's
axis).  The daylight branch runs with `A = 0` and `B = 0`, so the code computes
`atan(0.0 / 0.0)`: it returns NaN and stores NaN in `gamma`, and NaN is not in
`[-90, 90]`. -/
theorem tracker_angle_nan_on_axis :
    (15 : ℝ) < 90
      ∧ tracker_angle_nan ⟨360, 15, 75, 0, 6, 18, 1, 0⟩ ⟨0, -75, 0, 0.35, -10, 60⟩ := by
  have h0 : deg2rad 0 = 0 := by simp [deg2rad]
  have ht : deg2rad (360 - 360) = 0 := by simp [deg2rad]
  have hd : deg2rad (-75) - deg2rad 15 = -(Real.pi / 2) := by
    rw [deg2rad_eq, deg2rad_eq]
    ring
  refine ⟨by norm_num, by norm_num, ?_, ?_⟩
  · show tracker_angle_A (deg2rad 0) (deg2rad (360 - 360)) (deg2rad 15) = 0
    rw [h0, ht]
    simp [tracker_angle_A]
  · show tracker_angle_B (deg2rad 0) (deg2rad (-75)) (deg2rad (360 - 360)) (deg2rad 15) = 0
    rw [h0, ht]
    unfold tracker_angle_B
    rw [Real.sin_zero, Real.cos_zero]
    have e : Real.cos (deg2rad (-75) - deg2rad 15) = 0 := by
      rw [hd, Real.cos_neg, Real.cos_pi_div_two]
    rw [Real.cos_sub] at e
    linarith

/-- The dot product of `tracker_incident` in terms of the locals `A` and `B` of
`tracker_angle`: for a roll `g` it is `B cos g - A sin g`. -/
theorem dot_eq (tracker : tracker_t) (solarpos : solarpos_t) (g : ℝ) :
    tracker_incident.dot { tracker with gamma := g } solarpos
      = tracker_angle_B (deg2rad tracker.alpha) (deg2rad tracker.beta)
            (deg2rad (360 - solarpos.azimuth)) (deg2rad solarpos.zenith) * Real.cos (deg2rad g)
        - tracker_angle_A (deg2rad tracker.alpha) (deg2rad (360 - solarpos.azimuth))
            (deg2rad solarpos.zenith) * Real.sin (deg2rad g) := by
  simp only [tracker_incident.dot, tracker_incident.tracker_x, tracker_incident.tracker_y,
    tracker_incident.tracker_z, tracker_incident.sun_x, tracker_incident.sun_y,
    tracker_incident.sun_z, tracker_angle_A, tracker_angle_B]
  ring

/-- Among all directions `(c, s)` on the unit circle, `B c - A s` is largest
at the direction `(c0, -s0)` with `c0 > 0` and `s0 / c0 = A / B`, for `B > 0`. -/
theorem roll_dot_le {A B c0 s0 c s : ℝ} (hB : 0 < B) (hc0 : 0 < c0)
    (h0 : c0 ^ 2 + s0 ^ 2 = 1) (h : c ^ 2 + s ^ 2 = 1) (hAB : B * s0 = A * c0) :
    B * c - A * s ≤ B * c0 + A * s0 := by
  have hD1 : (B * c0 + A * s0) * c0 = B := by
    have : (B * c0 + A * s0) * c0 = B * c0 ^ 2 + s0 * (A * c0) := by ring
    rw [this, ← hAB]
    have : B * c0 ^ 2 + s0 * (B * s0) = B * (c0 ^ 2 + s0 ^ 2) := by ring
    rw [this, h0, mul_one]
  have hD2 : (B * c0 + A * s0) * s0 = A := by
    have : (B * c0 + A * s0) * s0 = c0 * (B * s0) + A * s0 ^ 2 := by ring
    rw [this, hAB]
    have : c0 * (A * c0) + A * s0 ^ 2 = A * (c0 ^ 2 + s0 ^ 2) := by ring
    rw [this, h0, mul_one]
  have hD : 0 < B * c0 + A * s0 := by
    by_contra hcon
    have hle : B * c0 + A * s0 ≤ 0 := not_lt.mp hcon
    have : (B * c0 + A * s0) * c0 ≤ 0 := mul_nonpos_of_nonpos_of_nonneg hle hc0.le
    linarith
  have hone : c0 * c - s0 * s ≤ 1 := by
    nlinarith [sq_nonneg (c0 - c), sq_nonneg (s0 + s)]
  have e : B * c - A * s = (B * c0 + A * s0) * (c0 * c - s0 * s) := by
    have : (B * c0 + A * s0) * (c0 * c - s0 * s)
        = ((B * c0 + A * s0) * c0) * c - ((B * c0 + A * s0) * s0) * s := by ring
    rw [this, hD1, hD2]
  rw [e]
  calc (B * c0 + A * s0) * (c0 * c - s0 * s) ≤ (B * c0 + A * s0) * 1 :=
        mul_le_mul_of_nonneg_left hone hD.le
    _ = B * c0 + A * s0 := mul_one _

/-- For `B > 0` the value `atan2(A, B)` is inside `(-π/2, π/2)`, so
`tracker_angle` does not change the sign of `-atan(A / B)`. -/
theorem tracker_angle_of_pos (solarpos : solarpos_t) (tracker : tracker_t)
    (h : solarpos.zenith < 90)
    (hB : 0 < tracker_angle_B (deg2rad tracker.alpha) (deg2rad tracker.beta)
      (deg2rad (360 - solarpos.azimuth)) (deg2rad solarpos.zenith)) :
    (tracker_angle solarpos tracker).1
        = rad2deg (-Real.arctan (tracker_angle_A (deg2rad tracker.alpha)
            (deg2rad (360 - solarpos.azimuth)) (deg2rad solarpos.zenith)
          / tracker_angle_B (deg2rad tracker.alpha) (deg2rad tracker.beta)
            (deg2rad (360 - solarpos.azimuth)) (deg2rad solarpos.zenith)))
      ∧ (tracker_angle solarpos tracker).2
        = { tracker with gamma := (tracker_angle solarpos tracker).1 } := by
  have h90 : ¬ solarpos.zenith ≥ 90.0 := by norm_num; exact h
  unfold tracker_angle
  rw [if_neg h90]
  simp only []
  have hq : ¬ (atan2 (tracker_angle_A (deg2rad tracker.alpha)
        (deg2rad (360 - solarpos.azimuth)) (deg2rad solarpos.zenith))
      (tracker_angle_B (deg2rad tracker.alpha) (deg2rad tracker.beta)
        (deg2rad (360 - solarpos.azimuth)) (deg2rad solarpos.zenith)) > M_PI / 2
      ∨ atan2 (tracker_angle_A (deg2rad tracker.alpha)
        (deg2rad (360 - solarpos.azimuth)) (deg2rad solarpos.zenith))
      (tracker_angle_B (deg2rad tracker.alpha) (deg2rad tracker.beta)
        (deg2rad (360 - solarpos.azimuth)) (deg2rad solarpos.zenith)) < (-1 * M_PI) / 2) := by
    unfold atan2 M_PI
    rw [if_pos hB]
    intro hcon
    rcases hcon with hcon | hcon
    · linarith [Real.arctan_lt_pi_div_two (tracker_angle_A (deg2rad tracker.alpha)
          (deg2rad (360 - solarpos.azimuth)) (deg2rad solarpos.zenith)
        / tracker_angle_B (deg2rad tracker.alpha) (deg2rad tracker.beta)
          (deg2rad (360 - solarpos.azimuth)) (deg2rad solarpos.zenith))]
    · linarith [Real.neg_pi_div_two_lt_arctan (tracker_angle_A (deg2rad tracker.alpha)
          (deg2rad (360 - solarpos.azimuth)) (deg2rad solarpos.zenith)
        / tracker_angle_B (deg2rad tracker.alpha) (deg2rad tracker.beta)
          (deg2rad (360 - solarpos.azimuth)) (deg2rad solarpos.zenith))]
  rw [if_neg hq, atan_div_of_ne _ hB.ne']
  refine ⟨?_, ?_⟩ <;> first | rfl | trivial

/-- In exact arithmetic the ideal angle minimises the angle of incidence.  For
a sun position with zenith below 90 degrees and a tracker whose local `B` is
positive, the incidence angle at the roll that `tracker_angle` stores is at
most the incidence angle at any other roll `g`, for the same yaw, pitch and
sun position.  A tracker with pitch 0 has `B > 0` whenever the zenith is above
-90 degrees. -/
theorem roll_minimises_incidence (solarpos : solarpos_t) (tracker : tracker_t)
    (hz : solarpos.zenith < 90) :
    (0 < tracker_angle_B (deg2rad tracker.alpha) (deg2rad tracker.beta)
          (deg2rad (360 - solarpos.azimuth)) (deg2rad solarpos.zenith) →
        ∃ ir, tracker_incident (tracker_angle solarpos tracker).2 solarpos = some ir
          ∧ ∀ g, ∃ ig, tracker_incident { tracker with gamma := g } solarpos = some ig
              ∧ ir ≤ ig)
      ∧ (tracker.beta = 0 → -90 < solarpos.zenith →
          0 < tracker_angle_B (deg2rad tracker.alpha) (deg2rad tracker.beta)
            (deg2rad (360 - solarpos.azimuth)) (deg2rad solarpos.zenith)) := by
  constructor
  · intro hB
    obtain ⟨h1, h2⟩ := tracker_angle_of_pos solarpos tracker hz hB
    refine ⟨_, tracker_incident_eq _ _, fun g => ⟨_, tracker_incident_eq _ _, ?_⟩⟩
    rw [rad2deg_le_rad2deg]
    apply arccos_le_arccos_of_le
    rw [h2, h1, dot_eq, dot_eq, deg2rad_rad2deg, Real.cos_neg, Real.sin_neg]
    generalize tracker_angle_A (deg2rad tracker.alpha) (deg2rad (360 - solarpos.azimuth))
      (deg2rad solarpos.zenith) = A
    generalize tracker_angle_B (deg2rad tracker.alpha) (deg2rad tracker.beta)
      (deg2rad (360 - solarpos.azimuth)) (deg2rad solarpos.zenith) = B at hB ⊢
    have hc0 := Real.cos_arctan_pos (A / B)
    have hs0 : Real.sin (Real.arctan (A / B)) = A / B * Real.cos (Real.arctan (A / B)) := by
      have ht := Real.tan_arctan (A / B)
      rw [Real.tan_eq_sin_div_cos] at ht
      exact (div_eq_iff hc0.ne').mp ht
    have hAB : B * Real.sin (Real.arctan (A / B)) = A * Real.cos (Real.arctan (A / B)) := by
      rw [hs0, ← mul_assoc, mul_div_cancel₀ _ hB.ne']
    have hle := roll_dot_le hB hc0 (Real.cos_sq_add_sin_sq _) (Real.cos_sq_add_sin_sq (deg2rad g))
      hAB
    linarith
  · intro hb h1
    rw [hb]
    exact tracker_angle_B_pos_of_flat _ _ h1 hz

/-- C13: the tracker of `main.c` (yaw 0, pitch 0) under a sun at azimuth 90
and zenith 2.5 degrees.  The roll that `tracker_angle` stores is 2.5 degrees,
at which the tracker faces the sun: the argument that `tracker_incident`
passes to `acos` at the stored roll is exactly 1, the end of the domain of
`acos`, and it is passed unclipped, so any excess over 1 is a domain error.
The sum as the C code rounds it is `1.0000000000000002`: at the ideal roll the
code returns NaN, which is not at most the incidence angle at another roll. -/
theorem tracker_angle_incidence_unclipped :
    (tracker_angle ⟨90, 2.5, 87.5, 0, 6, 18, 1, 0⟩ ⟨0, 0, 0, 0.35, -10, 60⟩).2.gamma = 2.5
      ∧ tracker_incident.dot
          (tracker_angle ⟨90, 2.5, 87.5, 0, 6, 18, 1, 0⟩ ⟨0, 0, 0, 0.35, -10, 60⟩).2
          ⟨90, 2.5, 87.5, 0, 6, 18, 1, 0⟩ = 1
      ∧ ∀ e : ℝ, 0 < e →
        c_acos (tracker_incident.dot
          (tracker_angle ⟨90, 2.5, 87.5, 0, 6, 18, 1, 0⟩ ⟨0, 0, 0, 0.35, -10, 60⟩).2
          ⟨90, 2.5, 87.5, 0, 6, 18, 1, 0⟩ + e) = none := by
  have h0 : deg2rad 0 = 0 := by simp [deg2rad]
  have hpi := Real.pi_pos
  have hphi1 : -(Real.pi / 2) < deg2rad 2.5 := by
    rw [deg2rad_eq]
    have : (0 : ℝ) < 2.5 * (Real.pi / 180) := by positivity
    linarith
  have hphi2 : deg2rad 2.5 < Real.pi / 2 := by
    rw [← deg2rad_ninety, deg2rad_lt_deg2rad]
    norm_num
  have hcos : 0 < Real.cos (deg2rad 2.5) := Real.cos_pos_of_mem_Ioo ⟨hphi1, hphi2⟩
  have hA : tracker_angle_A (deg2rad 0) (deg2rad (360 - 90)) (deg2rad 2.5)
      = -Real.sin (deg2rad 2.5) := by
    unfold tracker_angle_A
    rw [h0, sin_cos_theta_east.1, sin_cos_theta_east.2, Real.sin_zero, Real.cos_zero]
    ring
  have hB : tracker_angle_B (deg2rad 0) (deg2rad 0) (deg2rad (360 - 90)) (deg2rad 2.5)
      = Real.cos (deg2rad 2.5) := by
    unfold tracker_angle_B
    rw [h0, sin_cos_theta_east.1, sin_cos_theta_east.2, Real.sin_zero, Real.cos_zero]
    ring
  obtain ⟨h1, h2⟩ := tracker_angle_of_pos ⟨90, 2.5, 87.5, 0, 6, 18, 1, 0⟩
    ⟨0, 0, 0, 0.35, -10, 60⟩ (by norm_num) (by
      show 0 < tracker_angle_B (deg2rad 0) (deg2rad 0) (deg2rad (360 - 90)) (deg2rad 2.5)
      rw [hB]
      exact hcos)
  have hr : (tracker_angle ⟨90, 2.5, 87.5, 0, 6, 18, 1, 0⟩ ⟨0, 0, 0, 0.35, -10, 60⟩).1
      = 2.5 := by
    rw [h1]
    show rad2deg (-Real.arctan (tracker_angle_A (deg2rad 0) (deg2rad (360 - 90)) (deg2rad 2.5)
      / tracker_angle_B (deg2rad 0) (deg2rad 0) (deg2rad (360 - 90)) (deg2rad 2.5))) = 2.5
    rw [hA, hB, neg_div, ← Real.tan_eq_sin_div_cos, Real.arctan_neg, neg_neg,
      Real.arctan_tan hphi1 hphi2, rad2deg_deg2rad]
  have hd : tracker_incident.dot
      (tracker_angle ⟨90, 2.5, 87.5, 0, 6, 18, 1, 0⟩ ⟨0, 0, 0, 0.35, -10, 60⟩).2
      ⟨90, 2.5, 87.5, 0, 6, 18, 1, 0⟩ = 1 := by
    rw [h2, hr, dot_eq]
    show tracker_angle_B (deg2rad 0) (deg2rad 0) (deg2rad (360 - 90)) (deg2rad 2.5)
        * Real.cos (deg2rad 2.5)
      - tracker_angle_A (deg2rad 0) (deg2rad (360 - 90)) (deg2rad 2.5)
        * Real.sin (deg2rad 2.5) = 1
    rw [hA, hB]
    have := Real.sin_sq_add_cos_sq (deg2rad 2.5)
    linarith
  refine ⟨?_, hd, fun e he => ?_⟩
  · rw [h2]
    exact hr
  · rw [hd]
    exact c_acos_none_of_gt (by linarith)

/-! ## The time of day and the day count -/

/-- The value of `julian` on 1 January. -/
theorem julian_jan_first (Y hour minute : ℕ) (tz : ℤ) (lat lon : ℝ) :
    julian ⟨Y, 1, 1, hour, minute, tz, lat, lon⟩ = some 1 := rfl

/-- The value of `julian` on 31 December: 365, and 366 when `year % 4 == 0`. -/
theorem julian_dec_last (Y hour minute : ℕ) (tz : ℤ) (lat lon : ℝ) :
    julian ⟨Y, 12, 31, hour, minute, tz, lat, lon⟩
      = some (if Y % 4 = 0 then 366 else 365) := by
  unfold julian
  rw [julian_loop_eq 12 (by norm_num)]
  by_cases h4 : Y % 4 = 0 <;> simp [nday, List.range, List.range.loop, h4]

/-- The whole days in `jd` are `day_count` of the year and the adjusted day of
year. -/
theorem jd_eq_day_count (inp : solarpos_inputs_t) (jday0 : ℤ) :
    solar_position_calc.jd inp jday0
      = 32916.5 + (day_count inp.year (solar_position_calc.jday inp jday0) : ℚ)
        + solar_position_calc.zulu inp / 24.0 := by
  unfold solar_position_calc.jd day_count solar_position_calc.leap solar_position_calc.delta
  push_cast
  ring

/-- C19: the day count is continuous across year boundaries.  With
`N(Y, d) = (Y-1949)*365 + (Y-1949)/4 + d`, for every year `Y ≥ 1949`,
`N(Y+1, julian(Y+1, Jan 1)) = N(Y, julian(Y, Dec 31)) + 1`; and the `jd`
computed for 1 January of year `Y+1` is exactly one day after the `jd`
computed for 31 December of year `Y` at the same time of day. -/
theorem day_count_continuous (Y : ℕ) (hY : 1949 ≤ Y) (hour minute : ℕ) (tz : ℤ)
    (lat lon : ℝ) :
    ∃ j1 j0, julian ⟨Y + 1, 1, 1, hour, minute, tz, lat, lon⟩ = some j1
      ∧ julian ⟨Y, 12, 31, hour, minute, tz, lat, lon⟩ = some j0
      ∧ day_count (Y + 1) j1 = day_count Y j0 + 1
      ∧ solar_position_calc.jd ⟨Y + 1, 1, 1, hour, minute, tz, lat, lon⟩ j1
        = solar_position_calc.jd ⟨Y, 12, 31, hour, minute, tz, lat, lon⟩ j0 + 1 := by
  have hcount : day_count (Y + 1) 1 = day_count Y (if Y % 4 = 0 then 366 else 365) + 1 := by
    unfold day_count
    rw [Int.tdiv_eq_ediv (by push_cast; omega) (by norm_num),
      Int.tdiv_eq_ediv (by omega) (by norm_num)]
    split_ifs with h4 <;> push_cast <;> omega
  refine ⟨1, if Y % 4 = 0 then 366 else 365, julian_jan_first _ _ _ _ _ _,
    julian_dec_last _ _ _ _ _ _, hcount, ?_⟩
  have hshift : ∀ (a b : solarpos_inputs_t) (ja jb : ℤ),
      solar_position_calc.zulu0 a = solar_position_calc.zulu0 b →
      day_count a.year ja = day_count b.year jb + 1 →
      solar_position_calc.jd a ja = solar_position_calc.jd b jb + 1 := by
    intro a b ja jb hz hc
    have hzz : solar_position_calc.zulu a = solar_position_calc.zulu b := by
      unfold solar_position_calc.zulu
      rw [hz]
    have hj : day_count a.year (solar_position_calc.jday a ja)
        = day_count b.year (solar_position_calc.jday b jb) + 1 := by
      unfold solar_position_calc.jday
      rw [hz]
      unfold day_count at hc ⊢
      split_ifs <;> linarith
    rw [jd_eq_day_count, jd_eq_day_count, hzz, hj]
    push_cast
    ring
  exact hshift _ _ _ _ rfl hcount

/-- Witness for C19: from 31 December 2016, a leap year, to 1 January 2017. -/
theorem day_count_continuous_witness :
    ∃ j1 j0, julian ⟨2016 + 1, 1, 1, 12, 0, -8, 47.608358, -122.323175⟩ = some j1
      ∧ julian ⟨2016, 12, 31, 12, 0, -8, 47.608358, -122.323175⟩ = some j0
      ∧ day_count (2016 + 1) j1 = day_count 2016 j0 + 1
      ∧ solar_position_calc.jd ⟨2016 + 1, 1, 1, 12, 0, -8, 47.608358, -122.323175⟩ j1
        = solar_position_calc.jd ⟨2016, 12, 31, 12, 0, -8, 47.608358, -122.323175⟩ j0 + 1 :=
  day_count_continuous 2016 (by norm_num) 12 0 (-8) 47.608358 (-122.323175)

/-! ## The refraction correction -/

/-- C20: the refraction correction never lowers the sun and never divides by
zero.  For every uncorrected elevation `E` in `[-90, 90]` degrees the
denominator `1 + 0.505 E + 0.0845 E²` is not zero, the refraction term (0.56
when `E ≤ -0.56`, the quotient otherwise) is strictly positive, and the
corrected elevation `min(E + refraction, 90)` is at least `E`; so the
corrected elevation that `solar_position_calc` works out is never below the
uncorrected one. -/
theorem refraction_raises (e : ℝ) (_h1 : -90 ≤ e) (h2 : e ≤ 90) :
    1.0 + 0.505 * e + 0.0845 * e ^ 2 ≠ 0
      ∧ 0 < solar_position_calc.refrac_of e
      ∧ (e ≤ -0.56 → solar_position_calc.refrac_of e = 0.56)
      ∧ (-0.56 < e → solar_position_calc.refrac_of e
          = 3.51561 * (0.1594 + 0.0196 * e + 0.00002 * e ^ 2)
            / (1.0 + 0.505 * e + 0.0845 * e ^ 2))
      ∧ e ≤ min (e + solar_position_calc.refrac_of e) 90
      ∧ ∀ inp jday0, solar_position_calc.elv_deg inp jday0
          ≤ rad2deg (solar_position_calc.elv_corrected inp jday0) := by
  refine ⟨(refrac_den_pos e).ne', refrac_of_pos e, fun h => ?_, fun h => ?_,
    le_min (by linarith [refrac_of_pos e]) h2, fun inp jday0 => ?_⟩
  · unfold solar_position_calc.refrac_of
    rw [if_neg (not_lt.mpr h)]
  · unfold solar_position_calc.refrac_of
    rw [if_pos h]
  · have hp : 0 < solar_position_calc.refrac inp jday0 := refrac_of_pos _
    have hm := elv_deg_mem inp jday0
    unfold solar_position_calc.elv_corrected
    split_ifs <;> rw [rad2deg_deg2rad] <;> norm_num <;> linarith [hm.2]

/-- Witness for C20: the sun on the horizon, where the refraction term is
`3.51561 * 0.1594`. -/
theorem refraction_raises_witness :
    0 < solar_position_calc.refrac_of 0
      ∧ (0 : ℝ) ≤ min (0 + solar_position_calc.refrac_of 0) 90 :=
  have h := refraction_raises 0 (by norm_num) (by norm_num)
  ⟨h.2.1, h.2.2.2.2.1⟩

/-! ## The backtracking branch of `shade_avoidance_angle` -/

/-- The sine in the backtracking branch is the cosine of the ideal angle. -/
theorem sin_gamma_eq (x : ℝ) :
    Real.sin (deg2rad (90.0 - x)) = Real.cos (deg2rad |x|) := by
  have e90 : (90.0 : ℝ) = 90 := by norm_num
  rw [e90, deg2rad_sub, deg2rad_ninety, Real.sin_pi_div_two_sub, deg2rad_abs, Real.cos_abs]

/-- In the backtracking branch, with the argument of `asin` in its domain, the
value before the clamp is the backtracking angle of the specification. -/
theorem shade_avoidance_raw_backtrack {x a : ℝ} {tracker : tracker_t}
    (hg0 : 0 < tracker.gcr) (hg1 : tracker.gcr ≤ 1) (ha : c_abs x = some a)
    (hcut : ¬ a ≤ rad2deg (Real.arccos tracker.gcr))
    (hm : -1 ≤ Real.sin (deg2rad (90.0 - x)) / tracker.gcr
      ∧ Real.sin (deg2rad (90.0 - x)) / tracker.gcr ≤ 1) :
    shade_avoidance_raw x tracker = some (backtracking_formula x tracker.gcr) := by
  have e90 : (90.0 : ℝ) = 90 := by norm_num
  have hasin : c_asin (Real.sin (deg2rad (90.0 - x)) / tracker.gcr)
      = some (Real.arcsin (Real.sin (deg2rad (90.0 - x)) / tracker.gcr)) := by
    unfold c_asin
    rw [if_pos hm]
  unfold shade_avoidance_raw backtracking_formula
  rw [ha, c_acos_gcr hg0 hg1]
  simp only [Option.map_some', le_nan]
  rw [if_neg hcut, hasin]
  simp only [Option.map_some']
  by_cases hneg : x < 0
  · rw [if_pos hneg, if_pos hneg, rad2deg_sub, rad2deg_sub, rad2deg_deg2rad, rad2deg_deg2rad,
      e90]
  · rw [if_neg hneg, if_neg hneg, rad2deg_sub, rad2deg_sub, rad2deg_sub, rad2deg_deg2rad,
      rad2deg_deg2rad, e90]

/-- The backtracking angle lies between flat and the ideal angle: for an ideal
angle `x` beyond the cutoff and up to 90 degrees it is in `[0, x)` when
`x ≥ 0` and in `(x, 0]` when `x < 0`. -/
theorem backtracking_formula_mem {x g : ℝ} (hg0 : 0 < g) (hg1 : g ≤ 1)
    (hcut : rad2deg (Real.arccos g) < |x|) (hx : |x| ≤ 90) :
    (0 ≤ x → 0 ≤ backtracking_formula x g ∧ backtracking_formula x g < x)
      ∧ (x < 0 → x < backtracking_formula x g ∧ backtracking_formula x g ≤ 0) := by
  have hm := backtrack_arg_mem hg0 hg1 hcut hx
  have e90 : (90.0 : ℝ) = 90 := by norm_num
  rw [e90] at hm
  have hx0 : 0 ≤ deg2rad |x| := by
    rw [deg2rad_eq]
    positivity
  have hx1 : deg2rad |x| ≤ Real.pi / 2 := by
    rw [← deg2rad_ninety, deg2rad_le_deg2rad]
    exact hx
  -- the arc sine is below 90 degrees and at least 90 degrees less `|x|`
  have hup : rad2deg (Real.arcsin (Real.sin (deg2rad (90 - x)) / g)) < 90 := by
    have := rad2deg_lt_rad2deg.mpr (Real.arcsin_lt_pi_div_two.mpr hm.2)
    rwa [rad2deg_pi_div_two] at this
  have hlow : 90 - |x| ≤ rad2deg (Real.arcsin (Real.sin (deg2rad (90 - x)) / g)) := by
    have hs : Real.sin (deg2rad (90 - x)) = Real.sin (Real.pi / 2 - deg2rad |x|) := by
      have := sin_gamma_eq x
      rw [e90] at this
      rw [this, Real.sin_pi_div_two_sub]
    have hnn : 0 ≤ Real.sin (Real.pi / 2 - deg2rad |x|) := by
      rw [Real.sin_pi_div_two_sub]
      exact Real.cos_nonneg_of_neg_pi_div_two_le_of_le (by linarith [Real.pi_pos]) hx1
    have hv : Real.sin (Real.pi / 2 - deg2rad |x|)
        ≤ Real.sin (deg2rad (90 - x)) / g := by
      rw [hs, le_div_iff₀ hg0]
      nlinarith
    have hmono := Real.monotone_arcsin hv
    rw [Real.arcsin_sin (by linarith) (by linarith)] at hmono
    have := rad2deg_le_rad2deg.mpr hmono
    rwa [rad2deg_sub, rad2deg_pi_div_two, rad2deg_deg2rad] at this
  unfold backtracking_formula
  simp only []
  constructor
  · intro h0
    rw [if_neg (not_lt.mpr h0)]
    rw [abs_of_nonneg h0] at hlow
    constructor <;> linarith
  · intro hneg
    rw [if_pos hneg]
    rw [abs_of_neg hneg] at hlow
    constructor <;> linarith

/-- When the test `abs(tracker_angle) <= direct_cutoff` holds, the value before
the clamp is the ideal angle. -/
theorem shade_avoidance_raw_of_test {x a : ℝ} {tracker : tracker_t}
    (hg0 : 0 < tracker.gcr) (hg1 : tracker.gcr ≤ 1) (ha : c_abs x = some a)
    (hle : a ≤ rad2deg (Real.arccos tracker.gcr)) :
    shade_avoidance_raw x tracker = some x := by
  unfold shade_avoidance_raw
  rw [ha, c_acos_gcr hg0 hg1]
  simp only [Option.map_some', le_nan]
  rw [if_pos hle]

/-- The cutoff of a tracker with `gcr = 1/2` is 60 degrees. -/
theorem direct_cutoff_half : rad2deg (Real.arccos (1 / 2)) = 60 := by
  have h : Real.arccos (1 / 2) = Real.pi / 3 := by
    rw [← Real.cos_pi_div_three]
    exact Real.arccos_cos (by positivity) (by linarith [Real.pi_pos])
  rw [h, rad2deg_eq]
  field_simp
  ring

/-- C14, at a failing input: a tracker with `gcr = 1/2` (cutoff 60 degrees) and
`rom = 90`, ideal angle 60.5.  The ideal angle is beyond the cutoff, but
`abs` converts it to the `int` 60, the test `abs(tracker_angle) <=
direct_cutoff` holds, and the function returns the ideal angle 60.5 itself;
the backtracking angle, which lies in `[0, 60.5)` and so inside the range of
motion, is not computed. -/
theorem shade_avoidance_angle_skips_backtracking :
    (0 : ℝ) < 1 / 2 ∧ (1 / 2 : ℝ) ≤ 1
      ∧ rad2deg (Real.arccos (1 / 2)) < |(60.5 : ℝ)|
      ∧ c_abs 60.5 = some 60
      ∧ shade_avoidance_angle 60.5 ⟨0, 0, 0, 1 / 2, -10, 90⟩ = some 60.5
      ∧ 0 ≤ backtracking_formula 60.5 (1 / 2)
      ∧ backtracking_formula 60.5 (1 / 2) < 60.5
      ∧ (if backtracking_formula 60.5 (1 / 2) < -90 then (-90 : ℝ)
          else if backtracking_formula 60.5 (1 / 2) > 90 then 90
          else backtracking_formula 60.5 (1 / 2)) ≠ 60.5 := by
  have habs605 : |(60.5 : ℝ)| = 60.5 := abs_of_nonneg (by norm_num)
  have hcut : rad2deg (Real.arccos (1 / 2)) < |(60.5 : ℝ)| := by
    rw [direct_cutoff_half, habs605]
    norm_num
  have ht : trunc (60.5 : ℝ) = 60 := by
    unfold trunc
    rw [if_pos (by norm_num), Int.floor_eq_iff]
    constructor <;> norm_num
  have habs : c_abs 60.5 = some 60 := by
    rw [c_abs_of_abs_le (by rw [habs605]; norm_num), ht]
    norm_num
  have hraw : shade_avoidance_raw 60.5 ⟨0, 0, 0, 1 / 2, -10, 90⟩ = some 60.5 :=
    @shade_avoidance_raw_of_test 60.5 60 ⟨0, 0, 0, 1 / 2, -10, 90⟩ (by norm_num)
      (by norm_num) habs (by
        show (60 : ℝ) ≤ rad2deg (Real.arccos (1 / 2))
        rw [direct_cutoff_half])
  have hres : shade_avoidance_angle 60.5 ⟨0, 0, 0, 1 / 2, -10, 90⟩ = some 60.5 := by
    rw [shade_avoidance_angle_of_raw hraw, if_neg (by norm_num), if_neg (by norm_num)]
  have hf := (backtracking_formula_mem (x := 60.5) (g := 1 / 2) (by norm_num) (by norm_num)
    hcut (by rw [habs605]; norm_num)).1 (by norm_num)
  refine ⟨by norm_num, by norm_num, hcut, habs, hres, hf.1, hf.2, ?_⟩
  rw [if_neg (by linarith [hf.1]), if_neg (by linarith [hf.2])]
  exact hf.2.ne

/-! ## The scenario `gcr = 0.35`, `rom = 60`, ideal angle 80 -/

/-- The value `acos x` is below an angle `y` of `[0, π]` whose cosine is below
`x`. -/
theorem arccos_lt_of_cos_lt {x y : ℝ} (hx1 : -1 ≤ x) (hx2 : x ≤ 1) (hy0 : 0 ≤ y)
    (hy1 : y ≤ Real.pi) (h : Real.cos y < x) : Real.arccos x < y := by
  have := Real.strictAntiOn_arccos ⟨Real.neg_one_le_cos y, Real.cos_le_one y⟩ ⟨hx1, hx2⟩ h
  rwa [Real.arccos_cos hy0 hy1] at this

/-- The function `asin` is increasing on `[-1, 1]`. -/
theorem arcsin_lt_arcsin_of_lt {x y : ℝ} (hx : -1 ≤ x) (h : x < y) (hy : y ≤ 1) :
    Real.arcsin x < Real.arcsin y :=
  Real.strictMonoOn_arcsin ⟨hx, h.le.trans hy⟩ ⟨hx.trans h.le, hy⟩ h

/-- Bounds on `sin 10°`. -/
theorem sin_ten_mem : 0.173 < Real.sin (deg2rad 10) ∧ Real.sin (deg2rad 10) < 0.175 := by
  have hpi1 := Real.pi_gt_d2
  have hpi2 := Real.pi_lt_d2
  have hx : deg2rad 10 = Real.pi / 18 := by
    rw [deg2rad_eq]
    ring
  rw [hx]
  constructor
  · have hmono : Real.sin 0.1744 ≤ Real.sin (Real.pi / 18) :=
      Real.sin_le_sin_of_le_of_le_pi_div_two (by linarith) (by linarith) (by linarith)
    have hlow := Real.sin_gt_sub_cube (x := 0.1744) (by norm_num) (by norm_num)
    have : (0.173 : ℝ) < 0.1744 - 0.1744 ^ 3 / 4 := by norm_num
    linarith
  · have := Real.sin_lt (x := Real.pi / 18) (by positivity)
    linarith

/-- An upper bound on `sin 29°`. -/
theorem sin_twenty_nine_lt : Real.sin (deg2rad 29) < 0.49 := by
  have hpi1 := Real.pi_gt_d2
  have hpi2 := Real.pi_lt_d6
  have hx : deg2rad 29 = 29 * Real.pi / 180 := by
    rw [deg2rad_eq]
    ring
  rw [hx]
  have hmono : Real.sin (29 * Real.pi / 180) ≤ Real.sin 0.5062 :=
    Real.sin_le_sin_of_le_of_le_pi_div_two (by linarith) (by linarith) (by linarith)
  have hb := Real.sin_bound (x := 0.5062) (by rw [abs_of_nonneg] <;> norm_num)
  have hb2 := (abs_le.mp hb).2
  rw [abs_of_nonneg (by norm_num : (0 : ℝ) ≤ 0.5062)] at hb2
  have : (0.5062 : ℝ) - 0.5062 ^ 3 / 6 + 0.5062 ^ 4 * (5 / 96) < 0.49 := by norm_num
  linarith

/-- The cutoff of the tracker of `main.c` is below 80 degrees. -/
theorem cutoff_main_tracker_lt : rad2deg (Real.arccos 0.35) < 80 := by
  have hpi := Real.pi_pos
  have h80 : |(80 : ℝ)| = 80 := abs_of_nonneg (by norm_num)
  have hcos : Real.cos (deg2rad 80) < 0.35 := by
    have e := sin_gamma_eq 80
    rw [h80] at e
    have e10 : (90.0 : ℝ) - 80 = 10 := by norm_num
    rw [e10] at e
    rw [← e]
    linarith [sin_ten_mem.2]
  have hlt : Real.arccos 0.35 < deg2rad 80 := by
    apply arccos_lt_of_cos_lt (by norm_num) (by norm_num) _ _ hcos
    · rw [deg2rad_eq]
      positivity
    · rw [deg2rad_eq]
      linarith
  have := rad2deg_lt_rad2deg.mpr hlt
  rwa [rad2deg_deg2rad] at this

/-- The backtracking angle for `gcr = 0.35` at the ideal angle 80 is
`asin(sin 10° / 0.35) - 10°`, between 19 and 20 degrees. -/
theorem backtracking_formula_80_mem :
    19 < backtracking_formula 80 0.35 ∧ backtracking_formula 80 0.35 < 20 := by
  have hs := sin_ten_mem
  have h29 := sin_twenty_nine_lt
  have hpi := Real.pi_pos
  have e : backtracking_formula 80 0.35
      = rad2deg (Real.arcsin (Real.sin (deg2rad 10) / 0.35)) - 10 := by
    unfold backtracking_formula
    simp only []
    rw [if_neg (by norm_num)]
    have e10 : (90 : ℝ) - 80 = 10 := by norm_num
    rw [e10]
    ring
  have hv1 : Real.sin (deg2rad 29) < Real.sin (deg2rad 10) / 0.35 := by
    rw [lt_div_iff₀ (by norm_num)]
    linarith
  have hv2 : Real.sin (deg2rad 10) / 0.35 < 1 / 2 := by
    rw [div_lt_iff₀ (by norm_num)]
    linarith
  have h29m : deg2rad 29 ∈ Set.Icc (-(Real.pi / 2)) (Real.pi / 2) := by
    rw [deg2rad_eq]
    constructor <;> linarith
  have hlow : deg2rad 29 < Real.arcsin (Real.sin (deg2rad 10) / 0.35) := by
    have := Real.arcsin_sin h29m.1 h29m.2
    rw [← this]
    exact arcsin_lt_arcsin_of_lt (by linarith [Real.neg_one_le_sin (deg2rad 29)]) hv1
      (by linarith)
  have hup : Real.arcsin (Real.sin (deg2rad 10) / 0.35) < deg2rad 30 := by
    have e30 : deg2rad 30 = Real.pi / 6 := by
      rw [deg2rad_eq]
      ring
    have := Real.arcsin_sin (x := Real.pi / 6) (by linarith) (by linarith)
    rw [e30, ← this, Real.sin_pi_div_six]
    have hv0 : (0 : ℝ) < Real.sin (deg2rad 10) / 0.35 := by
      apply div_pos _ (by norm_num)
      linarith
    exact arcsin_lt_arcsin_of_lt (by linarith) hv2 (by norm_num)
  have h1 := rad2deg_lt_rad2deg.mpr hlow
  have h2 := rad2deg_lt_rad2deg.mpr hup
  rw [rad2deg_deg2rad] at h1 h2
  rw [e]
  constructor <;> linarith

/-- At the ideal angle 80 the tracker of `main.c` takes the backtracking
branch and stays inside its range of motion: the function returns the
backtracking angle. -/
theorem shade_avoidance_angle_80 :
    shade_avoidance_angle 80 ⟨0, 0, 0, 0.35, -10, 60⟩
      = some (backtracking_formula 80 0.35) := by
  have h80 : |(80 : ℝ)| = 80 := abs_of_nonneg (by norm_num)
  have hx : |(80 : ℝ)| ≤ 90 := by rw [h80]; norm_num
  have ht : trunc (80 : ℝ) = 80 := by
    unfold trunc
    rw [if_pos (by norm_num)]
    exact Int.floor_ofNat 80
  have habs : c_abs 80 = some 80 := by
    rw [c_abs_of_abs_le hx, ht]
    norm_num
  have hcut := cutoff_main_tracker_lt
  have hm := backtrack_arg_mem (x := 80) (g := 0.35) (by norm_num) (by norm_num)
    (by rw [h80]; exact hcut) hx
  have hraw := @shade_avoidance_raw_backtrack 80 80 ⟨0, 0, 0, 0.35, -10, 60⟩ (by norm_num)
    (by norm_num) habs (not_le.mpr hcut) ⟨by linarith [hm.1], hm.2.le⟩
  have hf := backtracking_formula_80_mem
  rw [shade_avoidance_angle_of_raw hraw]
  have e1 : ¬ backtracking_formula 80 0.35 < -60 := by
    show ¬ backtracking_formula 80 0.35 < -60
    linarith [hf.1]
  have e2 : ¬ backtracking_formula 80 0.35 > 60 := by
    show ¬ backtracking_formula 80 0.35 > 60
    linarith [hf.2]
  show some (if backtracking_formula 80 0.35 < -60 then (-60 : ℝ)
    else if backtracking_formula 80 0.35 > 60 then 60 else backtracking_formula 80 0.35)
    = some (backtracking_formula 80 0.35)
  rw [if_neg e1, if_neg e2]

/-- C21 (as the code has it): for the tracker with `gcr = 0.35` and `rom = 60`
and the ideal angle 80, which exceeds the direct cutoff `rad2deg(acos(0.35))`,
`shade_avoidance_angle` returns a positive value below both the cutoff and 60
degrees: the backtracking angle `asin(sin 10° / 0.35) - 10°`, which lies
between 19 and 20 degrees. -/
theorem shade_avoidance_scenario :
    rad2deg (Real.arccos 0.35) < 80
      ∧ ∃ y, shade_avoidance_angle 80 ⟨0, 0, 0, 0.35, -10, 60⟩ = some y
        ∧ 19 < y ∧ y < 20 ∧ y < rad2deg (Real.arccos 0.35) ∧ y < 60 := by
  have hf := backtracking_formula_80_mem
  have hc := cutoff_main_tracker
  exact ⟨cutoff_main_tracker_lt, _, shade_avoidance_angle_80, hf.1, hf.2, by linarith,
    by linarith⟩

/-- C21 fails as stated: the cutoff of the tracker with `gcr = 0.35` is at
least 67.5 degrees, so no value lies strictly between the cutoff and 60; the
value returned at the ideal angle 80 is below 20. -/
theorem shade_avoidance_scenario_not_between :
    ∃ y, shade_avoidance_angle 80 ⟨0, 0, 0, 0.35, -10, 60⟩ = some y
      ∧ y < 20 ∧ ¬ (rad2deg (Real.arccos 0.35) < y ∧ y < 60) := by
  refine ⟨_, shade_avoidance_angle_80, backtracking_formula_80_mem.2, ?_⟩
  rintro ⟨h1, -⟩
  linarith [cutoff_main_tracker, backtracking_formula_80_mem.2]

/-! ## The scenario of 20 March 2000, noon, at latitude 0 and longitude 0 -/

section fmod_lemmas

variable {α : Type} [LinearOrderedField α] [FloorRing α]

/-- The value `fmod x y` is `x` itself for `0 ≤ x < y`. -/
theorem fmod_eq_self {x y : α} (h0 : 0 ≤ x) (h1 : x < y) : fmod x y = x := by
  have hy : 0 < y := lt_of_le_of_lt h0 h1
  have hq0 : 0 ≤ x / y := div_nonneg h0 hy.le
  have hq1 : x / y < 1 := (div_lt_one hy).mpr h1
  have ht : trunc (x / y) = 0 := by
    unfold trunc
    rw [if_pos hq0]
    exact Int.floor_eq_zero_iff.mpr ⟨hq0, hq1⟩
  unfold fmod
  rw [ht]
  simp

/-- The value `fmod x y` is `x - y` for `y ≤ x < 2 y`. -/
theorem fmod_eq_sub {x y : α} (hy : 0 < y) (h0 : y ≤ x) (h1 : x < 2 * y) :
    fmod x y = x - y := by
  have hq0 : 1 ≤ x / y := (one_le_div hy).mpr h0
  have hq1 : x / y < 2 := (div_lt_iff₀ hy).mpr h1
  have ht : trunc (x / y) = 1 := by
    unfold trunc
    rw [if_pos (by linarith)]
    rw [Int.floor_eq_iff]
    constructor
    · simpa using hq0
    · push_cast
      linarith
  unfold fmod
  rw [ht]
  simp

/-- The idiom `wrap` leaves a value of `[0, m)` as it is. -/
theorem wrap_eq_self {x m : α} (h0 : 0 ≤ x) (h1 : x < m) :
    solar_position_calc.wrap x m = x := by
  unfold solar_position_calc.wrap
  rw [fmod_eq_self h0 h1, if_neg (not_lt.mpr h0)]

/-- The idiom `wrap` takes `m` off a value of `[m, 2 m)`. -/
theorem wrap_eq_sub {x m : α} (hm : 0 < m) (h0 : m ≤ x) (h1 : x < 2 * m) :
    solar_position_calc.wrap x m = x - m := by
  unfold solar_position_calc.wrap
  rw [fmod_eq_sub hm h0 h1, if_neg (not_lt.mpr (sub_nonneg.mpr h0))]

end fmod_lemmas

/-- The equinox scenario: `julian` returns day 80. -/
theorem equinox_julian : julian equinox_inputs = some 80 := rfl

/-- The equinox scenario: `zulu` is 12 hours. -/
theorem equinox_zulu : solar_position_calc.zulu equinox_inputs = 12 := by
  norm_num [solar_position_calc.zulu, solar_position_calc.zulu0, equinox_inputs]

/-- The equinox scenario: `time` is 79 days. -/
theorem equinox_time : solar_position_calc.time equinox_inputs 80 = 79 := by
  have hj : solar_position_calc.jday equinox_inputs 80 = 80 := by
    norm_num [solar_position_calc.jday, solar_position_calc.zulu0, equinox_inputs]
  have hl : solar_position_calc.leap equinox_inputs = 12 := by
    norm_num [solar_position_calc.leap, solar_position_calc.delta, equinox_inputs, Int.tdiv]
  have hd : solar_position_calc.delta equinox_inputs = 51 := by
    norm_num [solar_position_calc.delta, equinox_inputs]
  rw [solar_position_calc.time, solar_position_calc.jd, hj, hl, hd, equinox_zulu]
  norm_num

/-- The equinox scenario: the mean longitude in degrees. -/
theorem equinox_mnlong : solar_position_calc.mnlong equinox_inputs 80 = 358.3261446 := by
  rw [solar_position_calc.mnlong, equinox_time, wrap_eq_self (by norm_num) (by norm_num)]
  norm_num

/-- The equinox scenario: the mean anomaly in degrees. -/
theorem equinox_mnanom_deg :
    solar_position_calc.mnanom_deg equinox_inputs 80 = 75.3904237 := by
  rw [solar_position_calc.mnanom_deg, equinox_time,
    wrap_eq_sub (by norm_num) (by norm_num) (by norm_num)]
  norm_num

/-- The equinox scenario: Greenwich mean sidereal time in hours. -/
theorem equinox_gmst : solar_position_calc.gmst equinox_inputs 80 = 23.8884511118 := by
  rw [solar_position_calc.gmst, equinox_time, equinox_zulu,
    wrap_eq_self (by norm_num) (by norm_num)]
  norm_num

/-- The equinox scenario: the sine of the mean anomaly (about 75.4 degrees) is
at least 0.967, and the sine of twice the mean anomaly is not negative. -/
theorem equinox_sin_mnanom :
    0.967 ≤ Real.sin (solar_position_calc.mnanom equinox_inputs 80)
      ∧ 0 ≤ Real.sin (2.0 * solar_position_calc.mnanom equinox_inputs 80) := by
  have hpi1 := Real.pi_gt_d2
  have hpi2 := Real.pi_lt_d2
  have hm : solar_position_calc.mnanom equinox_inputs 80 = 75.3904237 * Real.pi / 180 := by
    rw [solar_position_calc.mnanom, equinox_mnanom_deg, deg2rad_eq]
    push_cast
    ring
  rw [hm]
  constructor
  · have e : (75.3904237 : ℝ) * Real.pi / 180
        = Real.pi / 2 - 14.6095763 * Real.pi / 180 := by ring
    rw [e, Real.sin_pi_div_two_sub]
    have hc := Real.one_sub_sq_div_two_le_cos (x := 14.6095763 * Real.pi / 180)
    have hy0 : (0 : ℝ) ≤ 14.6095763 * Real.pi / 180 := by positivity
    have hy1 : (14.6095763 : ℝ) * Real.pi / 180 ≤ 0.2557 := by linarith
    have hsq : ((14.6095763 : ℝ) * Real.pi / 180) ^ 2 ≤ 0.2557 ^ 2 :=
      pow_le_pow_left₀ hy0 hy1 2
    have : (0.967 : ℝ) ≤ 1 - 0.2557 ^ 2 / 2 := by norm_num
    linarith
  · apply Real.sin_nonneg_of_nonneg_of_le_pi
    · positivity
    · linarith

/-- The equinox scenario: the ecliptic longitude is between 0.003 and 0.0046
radians. -/
theorem equinox_eclong :
    0.003 ≤ solar_position_calc.eclong equinox_inputs 80
      ∧ solar_position_calc.eclong equinox_inputs 80 ≤ 0.0046 := by
  have hpi1 := Real.pi_gt_d2
  have hpi2 := Real.pi_lt_d2
  obtain ⟨hsa, hsb⟩ := equinox_sin_mnanom
  have hs1 := Real.sin_le_one (solar_position_calc.mnanom equinox_inputs 80)
  have hs2 := Real.sin_le_one (2.0 * solar_position_calc.mnanom equinox_inputs 80)
  have hl : ((solar_position_calc.mnlong equinox_inputs 80 : ℚ) : ℝ) = 358.3261446 := by
    rw [equinox_mnlong]
    norm_num
  unfold solar_position_calc.eclong
  rw [hl]
  generalize Real.sin (2.0 * solar_position_calc.mnanom equinox_inputs 80) = s2 at *
  generalize Real.sin (solar_position_calc.mnanom equinox_inputs 80) = s1 at *
  have hS0 : (360.0 : ℝ) ≤ 358.3261446 + 1.915 * s1 + 0.020 * s2 := by
    norm_num at hsa ⊢
    linarith
  have hS1 : (358.3261446 : ℝ) + 1.915 * s1 + 0.020 * s2 < 2 * 360.0 := by
    norm_num
    linarith
  rw [wrap_eq_sub (by norm_num) hS0 hS1, deg2rad_eq]
  have h1 : (0.177 : ℝ) ≤ 358.3261446 + 1.915 * s1 + 0.020 * s2 - 360.0 := by
    norm_num at hsa ⊢
    linarith
  have h2 : (358.3261446 : ℝ) + 1.915 * s1 + 0.020 * s2 - 360.0 ≤ 0.262 := by
    norm_num
    linarith
  have h3 : (0.177 : ℝ) * (Real.pi / 180)
      ≤ (358.3261446 + 1.915 * s1 + 0.020 * s2 - 360.0) * (Real.pi / 180) :=
    mul_le_mul_of_nonneg_right h1 (by positivity)
  have h4 : (358.3261446 + 1.915 * s1 + 0.020 * s2 - 360.0) * (Real.pi / 180)
      ≤ (0.262 : ℝ) * (Real.pi / 180) :=
    mul_le_mul_of_nonneg_right h2 (by positivity)
  constructor <;> linarith

/-- The equinox scenario: the obliquity of the ecliptic is between 0 and 30
degrees. -/
theorem equinox_oblqec :
    0 < solar_position_calc.oblqec equinox_inputs 80
      ∧ solar_position_calc.oblqec equinox_inputs 80 < Real.pi / 6 := by
  have hpi := Real.pi_pos
  have ho : solar_position_calc.oblqec equinox_inputs 80 = 23.4389684 * (Real.pi / 180) := by
    rw [solar_position_calc.oblqec, equinox_time, deg2rad_eq]
    norm_num
  rw [ho]
  constructor
  · positivity
  · linarith

/-- The equinox scenario: the sine of the obliquity is between 0 and 1/2, its
cosine between 0 and 1. -/
theorem equinox_sin_cos_oblqec :
    0 < Real.sin (solar_position_calc.oblqec equinox_inputs 80)
      ∧ Real.sin (solar_position_calc.oblqec equinox_inputs 80) < 1 / 2
      ∧ 0 < Real.cos (solar_position_calc.oblqec equinox_inputs 80)
      ∧ Real.cos (solar_position_calc.oblqec equinox_inputs 80) ≤ 1 := by
  have hpi := Real.pi_pos
  have ho := equinox_oblqec
  refine ⟨Real.sin_pos_of_pos_of_lt_pi ho.1 (by linarith), ?_,
    Real.cos_pos_of_mem_Ioo ⟨by linarith, by linarith⟩, Real.cos_le_one _⟩
  rw [← Real.sin_pi_div_six]
  exact Real.sin_lt_sin_of_lt_of_le_pi_div_two (by linarith) (by linarith) ho.2

/-- The equinox scenario: the sine of the ecliptic longitude is positive and
at most 0.0046, and its cosine is positive. -/
theorem equinox_sin_cos_eclong :
    0 < Real.sin (solar_position_calc.eclong equinox_inputs 80)
      ∧ Real.sin (solar_position_calc.eclong equinox_inputs 80) ≤ 0.0046
      ∧ 0 < Real.cos (solar_position_calc.eclong equinox_inputs 80) := by
  have hpi := Real.pi_gt_d2
  have he := equinox_eclong
  have hpos : 0 < solar_position_calc.eclong equinox_inputs 80 := by linarith
  refine ⟨Real.sin_pos_of_pos_of_lt_pi hpos (by linarith), ?_,
    Real.cos_pos_of_mem_Ioo ⟨by linarith, by linarith⟩⟩
  linarith [Real.sin_le hpos.le]

/-- The equinox scenario: the right ascension is positive and at most the
ecliptic longitude, so at most 0.0046 radians. -/
theorem equinox_ra :
    0 < solar_position_calc.ra equinox_inputs 80
      ∧ solar_position_calc.ra equinox_inputs 80 ≤ 0.0046 := by
  have hpi := Real.pi_gt_d2
  have he := equinox_eclong
  have ho := equinox_sin_cos_oblqec
  have hs := equinox_sin_cos_eclong
  have hnum : 0 < solar_position_calc.num equinox_inputs 80 := by
    unfold solar_position_calc.num
    exact mul_pos ho.2.2.1 hs.1
  have hden : 0 < solar_position_calc.den equinox_inputs 80 := hs.2.2
  have hq : 0 < solar_position_calc.num equinox_inputs 80
      / solar_position_calc.den equinox_inputs 80 := div_pos hnum hden
  have hqle : solar_position_calc.num equinox_inputs 80
      / solar_position_calc.den equinox_inputs 80
      ≤ Real.tan (solar_position_calc.eclong equinox_inputs 80) := by
    rw [Real.tan_eq_sin_div_cos]
    unfold solar_position_calc.num solar_position_calc.den
    apply div_le_div_of_nonneg_right _ hs.2.2.le
    calc Real.cos (solar_position_calc.oblqec equinox_inputs 80)
          * Real.sin (solar_position_calc.eclong equinox_inputs 80)
        ≤ 1 * Real.sin (solar_position_calc.eclong equinox_inputs 80) :=
          mul_le_mul_of_nonneg_right ho.2.2.2 hs.1.le
      _ = Real.sin (solar_position_calc.eclong equinox_inputs 80) := one_mul _
  have hra : solar_position_calc.ra equinox_inputs 80
      = Real.arctan (solar_position_calc.num equinox_inputs 80
        / solar_position_calc.den equinox_inputs 80) := by
    unfold solar_position_calc.ra
    simp only []
    rw [if_neg (by norm_num; exact hden.le), if_neg (by norm_num; exact hnum.le),
      atan_div_of_ne _ hden.ne']
  rw [hra]
  constructor
  · have := Real.arctan_strictMono hq
    rwa [Real.arctan_zero] at this
  · have hmono := Real.arctan_strictMono.monotone hqle
    rw [Real.arctan_tan (by linarith) (by linarith)] at hmono
    linarith

/-- The equinox scenario: the declination is positive, its sine is at most
0.0023 and the declination itself at most 0.005 radians. -/
theorem equinox_dec :
    0 < solar_position_calc.dec equinox_inputs 80
      ∧ solar_position_calc.dec equinox_inputs 80 ≤ 0.005
      ∧ 0 < Real.sin (solar_position_calc.dec equinox_inputs 80)
      ∧ Real.sin (solar_position_calc.dec equinox_inputs 80) ≤ 0.0023 := by
  have hpi := Real.pi_gt_d2
  have ho := equinox_sin_cos_oblqec
  have hs := equinox_sin_cos_eclong
  have hm := dec_arg_mem equinox_inputs 80
  have ha0 : 0 < solar_position_calc.dec_arg equinox_inputs 80 := by
    unfold solar_position_calc.dec_arg
    exact mul_pos ho.1 hs.1
  have ha1 : solar_position_calc.dec_arg equinox_inputs 80 ≤ 0.0023 := by
    unfold solar_position_calc.dec_arg
    nlinarith [ho.1, ho.2.1, hs.1, hs.2.1]
  have hsin : Real.sin (solar_position_calc.dec equinox_inputs 80)
      = solar_position_calc.dec_arg equinox_inputs 80 := by
    unfold solar_position_calc.dec
    exact Real.sin_arcsin hm.1 hm.2
  refine ⟨?_, ?_, by rw [hsin]; exact ha0, by rw [hsin]; exact ha1⟩
  · unfold solar_position_calc.dec
    exact Real.arcsin_pos.mpr ha0
  · unfold solar_position_calc.dec
    rw [Real.arcsin_le_iff_le_sin ⟨hm.1, hm.2⟩ ⟨by linarith, by linarith⟩]
    have h5 := Real.sin_gt_sub_cube (x := 0.005) (by norm_num) (by norm_num)
    have : (0.0023 : ℝ) ≤ 0.005 - 0.005 ^ 3 / 4 := by norm_num
    linarith

/-- The equinox scenario: the hour angle is between -0.034 and -0.029 radians;
the sun is a little east of the meridian. -/
theorem equinox_ha :
    -0.034 ≤ solar_position_calc.ha equinox_inputs 80
      ∧ solar_position_calc.ha equinox_inputs 80 ≤ -0.029 := by
  have hpi1 := Real.pi_gt_d2
  have hpi2 := Real.pi_lt_d2
  have hra := equinox_ra
  have hg : ((solar_position_calc.gmst equinox_inputs 80 : ℚ) : ℝ) = 23.8884511118 := by
    rw [equinox_gmst]
    norm_num
  have hlon : equinox_inputs.longitude = 0 := rfl
  have hl : solar_position_calc.lmst equinox_inputs 80 = 23.8884511118 * Real.pi / 12 := by
    rw [solar_position_calc.lmst, hg, hlon,
      wrap_eq_self (by norm_num) (by norm_num), deg2rad_eq]
    ring
  unfold solar_position_calc.ha M_PI
  simp only []
  rw [hl, if_neg (by linarith), if_pos (by linarith)]
  constructor <;> linarith

/-- The equinox scenario: the argument of `asin` in the elevation is
`cos dec * cos ha`, between 0.999 and 1. -/
theorem equinox_arg_elv :
    solar_position_calc.arg_elv equinox_inputs 80
        = Real.cos (solar_position_calc.dec equinox_inputs 80)
          * Real.cos (solar_position_calc.ha equinox_inputs 80)
      ∧ 0.999 ≤ solar_position_calc.arg_elv equinox_inputs 80
      ∧ solar_position_calc.arg_elv equinox_inputs 80 < 1 := by
  have hpi := Real.pi_gt_d2
  have hd := equinox_dec
  have hh := equinox_ha
  have hlat : solar_position_calc.latrad equinox_inputs = 0 := by
    have : equinox_inputs.latitude = 0 := rfl
    rw [solar_position_calc.latrad, this, deg2rad_eq, zero_mul]
  have e : solar_position_calc.arg_elv equinox_inputs 80
      = Real.cos (solar_position_calc.dec equinox_inputs 80)
        * Real.cos (solar_position_calc.ha equinox_inputs 80) := by
    rw [solar_position_calc.arg_elv, hlat, Real.sin_zero, Real.cos_zero]
    ring
  have hcd := Real.one_sub_sq_div_two_le_cos (x := solar_position_calc.dec equinox_inputs 80)
  have hch := Real.one_sub_sq_div_two_le_cos (x := solar_position_calc.ha equinox_inputs 80)
  have hd2 : solar_position_calc.dec equinox_inputs 80 ^ 2 ≤ 0.005 ^ 2 :=
    pow_le_pow_left₀ hd.1.le hd.2.1 2
  have hh2 : solar_position_calc.ha equinox_inputs 80 ^ 2 ≤ 0.034 ^ 2 := by
    have : (-solar_position_calc.ha equinox_inputs 80) ^ 2 ≤ 0.034 ^ 2 :=
      pow_le_pow_left₀ (by linarith) (by linarith) 2
    rwa [neg_sq] at this
  have hcd1 : (0.9999 : ℝ) ≤ Real.cos (solar_position_calc.dec equinox_inputs 80) := by
    have : (0.9999 : ℝ) ≤ 1 - 0.005 ^ 2 / 2 := by norm_num
    linarith
  have hch1 : (0.9994 : ℝ) ≤ Real.cos (solar_position_calc.ha equinox_inputs 80) := by
    have : (0.9994 : ℝ) ≤ 1 - 0.034 ^ 2 / 2 := by norm_num
    linarith
  have hsin : Real.sin (solar_position_calc.ha equinox_inputs 80) < 0 :=
    Real.sin_neg_of_neg_of_neg_pi_lt (by linarith) (by linarith)
  have hch2 : Real.cos (solar_position_calc.ha equinox_inputs 80) < 1 := by
    have hsq := Real.sin_sq_add_cos_sq (solar_position_calc.ha equinox_inputs 80)
    by_contra hcon
    have h1 : Real.cos (solar_position_calc.ha equinox_inputs 80) = 1 :=
      le_antisymm (Real.cos_le_one _) (not_lt.mp hcon)
    rw [h1] at hsq
    have : Real.sin (solar_position_calc.ha equinox_inputs 80) ^ 2 = 0 := by linarith
    have := pow_eq_zero_iff (two_ne_zero) |>.mp this
    linarith
  refine ⟨e, ?_, ?_⟩
  · rw [e]
    have := mul_le_mul hcd1 hch1 (by norm_num) (by linarith)
    have h0 : (0.999 : ℝ) ≤ 0.9999 * 0.9994 := by norm_num
    linarith
  · rw [e]
    calc Real.cos (solar_position_calc.dec equinox_inputs 80)
          * Real.cos (solar_position_calc.ha equinox_inputs 80)
        ≤ 1 * Real.cos (solar_position_calc.ha equinox_inputs 80) :=
          mul_le_mul_of_nonneg_right (Real.cos_le_one _) (by linarith)
      _ < 1 := by rw [one_mul]; exact hch2

/-- The equinox scenario: the uncorrected elevation is within 0.05 radians of
the zenith, and below it. -/
theorem equinox_elv :
    Real.pi / 2 - 0.05 ≤ solar_position_calc.elv equinox_inputs 80
      ∧ solar_position_calc.elv equinox_inputs 80 < Real.pi / 2 := by
  have hpi := Real.pi_gt_d2
  have ha := equinox_arg_elv
  rw [elv_eq]
  constructor
  · rw [Real.le_arcsin_iff_sin_le ⟨by linarith, by linarith⟩ ⟨by linarith [ha.2.1], ha.2.2.le⟩,
      Real.sin_pi_div_two_sub]
    have hb := Real.cos_bound (x := 0.05) (by rw [abs_of_nonneg] <;> norm_num)
    have hb2 := (abs_le.mp hb).2
    rw [abs_of_nonneg (by norm_num : (0 : ℝ) ≤ 0.05)] at hb2
    have : (1 : ℝ) - 0.05 ^ 2 / 2 + 0.05 ^ 4 * (5 / 96) ≤ 0.999 := by norm_num
    linarith [ha.2.1]
  · exact Real.arcsin_lt_pi_div_two.mpr ha.2.2

/-- The equinox scenario: the cosine of the uncorrected elevation is at least
0.0289; the sun is more than a degree and a half from the zenith. -/
theorem equinox_cos_elv :
    0.0289 ≤ Real.cos (solar_position_calc.elv equinox_inputs 80) := by
  have hpi := Real.pi_gt_d2
  have ha := equinox_arg_elv
  have hh := equinox_ha
  have he := equinox_elv
  have hnn : 0 ≤ Real.cos (solar_position_calc.elv equinox_inputs 80) :=
    Real.cos_nonneg_of_neg_pi_div_two_le_of_le (by linarith) he.2.le
  have hsinelv : Real.sin (solar_position_calc.elv equinox_inputs 80)
      = solar_position_calc.arg_elv equinox_inputs 80 := by
    rw [elv_eq, Real.sin_arcsin (by linarith [ha.2.1]) ha.2.2.le]
  have h1 := Real.sin_sq_add_cos_sq (solar_position_calc.elv equinox_inputs 80)
  have h2 := Real.sin_sq_add_cos_sq (solar_position_calc.ha equinox_inputs 80)
  have hcd := Real.cos_le_one (solar_position_calc.dec equinox_inputs 80)
  have hcd0 : 0 ≤ Real.cos (solar_position_calc.dec equinox_inputs 80) :=
    Real.cos_nonneg_of_neg_pi_div_two_le_of_le (by linarith [equinox_dec.1])
      (by linarith [equinox_dec.2.1])
  have hch0 : 0 ≤ Real.cos (solar_position_calc.ha equinox_inputs 80) :=
    Real.cos_nonneg_of_neg_pi_div_two_le_of_le (by linarith) (by linarith)
  have hle : solar_position_calc.arg_elv equinox_inputs 80 ^ 2
      ≤ Real.cos (solar_position_calc.ha equinox_inputs 80) ^ 2 := by
    rw [ha.1, mul_pow]
    have hd2 : Real.cos (solar_position_calc.dec equinox_inputs 80) ^ 2 ≤ 1 := by
      nlinarith
    nlinarith [sq_nonneg (Real.cos (solar_position_calc.ha equinox_inputs 80))]
  have hsq : Real.sin (solar_position_calc.ha equinox_inputs 80) ^ 2
      ≤ Real.cos (solar_position_calc.elv equinox_inputs 80) ^ 2 := by
    rw [hsinelv] at h1
    linarith
  have habs := abs_le_of_sq_le_sq hsq hnn
  have hneg : Real.sin (solar_position_calc.ha equinox_inputs 80) < 0 :=
    Real.sin_neg_of_neg_of_neg_pi_lt (by linarith) (by linarith)
  rw [abs_of_neg hneg] at habs
  have hmono : Real.sin 0.029 ≤ Real.sin (-solar_position_calc.ha equinox_inputs 80) :=
    Real.sin_le_sin_of_le_of_le_pi_div_two (by linarith) (by linarith) (by linarith)
  rw [Real.sin_neg] at hmono
  have hlow := Real.sin_gt_sub_cube (x := 0.029) (by norm_num) (by norm_num)
  have : (0.0289 : ℝ) ≤ 0.029 - 0.029 ^ 3 / 4 := by norm_num
  linarith

/-- The equinox scenario: the argument of `acos` in the azimuth is
`-sin dec / cos elv`, negative and at least -0.08. -/
theorem equinox_arg_azm :
    -0.08 ≤ solar_position_calc.arg_azm equinox_inputs 80
      ∧ solar_position_calc.arg_azm equinox_inputs 80 < 0 := by
  have hd := equinox_dec
  have hc := equinox_cos_elv
  have hcpos : 0 < Real.cos (solar_position_calc.elv equinox_inputs 80) := by linarith
  have hlat : solar_position_calc.latrad equinox_inputs = 0 := by
    have : equinox_inputs.latitude = 0 := rfl
    rw [solar_position_calc.latrad, this, deg2rad_eq, zero_mul]
  have e : solar_position_calc.arg_azm equinox_inputs 80
      = -Real.sin (solar_position_calc.dec equinox_inputs 80)
        / Real.cos (solar_position_calc.elv equinox_inputs 80) := by
    rw [solar_position_calc.arg_azm, hlat, Real.sin_zero, Real.cos_zero, mul_zero, mul_one,
      zero_sub]
  rw [e]
  constructor
  · rw [le_div_iff₀ hcpos]
    nlinarith [hd.2.2.2]
  · exact div_neg_of_neg_of_pos (by linarith [hd.2.2.1]) hcpos

/-- A lower bound on `sin 5°`. -/
theorem sin_five_gt : 0.08 < Real.sin (Real.pi / 36) := by
  have hpi1 := Real.pi_gt_d2
  have hpi2 := Real.pi_lt_d2
  have hmono : Real.sin 0.087 ≤ Real.sin (Real.pi / 36) :=
    Real.sin_le_sin_of_le_of_le_pi_div_two (by linarith) (by linarith) (by linarith)
  have hlow := Real.sin_gt_sub_cube (x := 0.087) (by norm_num) (by norm_num)
  have : (0.08 : ℝ) < 0.087 - 0.087 ^ 3 / 4 := by norm_num
  linarith

/-- The equinox scenario: the azimuth in radians is `π - acos(arg)`, between
`π/2 - π/36` and `π/2`. -/
theorem equinox_azm :
    Real.pi / 2 - Real.pi / 36 ≤ solar_position_calc.azm equinox_inputs 80
      ∧ solar_position_calc.azm equinox_inputs 80 ≤ Real.pi / 2 := by
  have hpi := Real.pi_gt_d2
  have ha := equinox_arg_azm
  have hh := equinox_ha
  have hc := equinox_cos_elv
  have hazm : solar_position_calc.azm equinox_inputs 80
      = Real.pi - Real.arccos (solar_position_calc.arg_azm equinox_inputs 80) := by
    have hc0 : ¬ Real.cos (solar_position_calc.elv equinox_inputs 80) = 0.0 := by
      norm_num
      linarith
    have hgt : ¬ solar_position_calc.arg_azm equinox_inputs 80 > 1.0 := by
      norm_num
      linarith [ha.2]
    have hlt : ¬ solar_position_calc.arg_azm equinox_inputs 80 < -1.0 := by
      norm_num
      linarith [ha.1]
    have hcond : (solar_position_calc.ha equinox_inputs 80 ≤ 0.0
        ∧ solar_position_calc.ha equinox_inputs 80 ≥ -Real.pi)
        ∨ solar_position_calc.ha equinox_inputs 80 ≥ Real.pi := by
      left
      constructor
      · norm_num
        linarith [hh.2]
      · linarith [hh.1]
    unfold solar_position_calc.azm M_PI
    rw [if_neg hc0]
    simp only []
    rw [if_pos hcond, if_neg hgt, if_neg hlt]
  have hlow : Real.pi / 2 ≤ Real.arccos (solar_position_calc.arg_azm equinox_inputs 80) := by
    by_contra hcon
    have := Real.arccos_le_pi_div_two.mp (not_le.mp hcon).le
    linarith
  have hup : Real.arccos (solar_position_calc.arg_azm equinox_inputs 80)
      ≤ Real.pi / 2 + Real.pi / 36 := by
    have h1 : -Real.sin (Real.pi / 36) ≤ solar_position_calc.arg_azm equinox_inputs 80 := by
      linarith [sin_five_gt]
    have h2 := arccos_le_arccos_of_le h1
    have e : Real.arccos (-Real.sin (Real.pi / 36)) = Real.pi / 2 + Real.pi / 36 := by
      rw [Real.arccos_neg, Real.arccos_eq_pi_div_two_sub_arcsin,
        Real.arcsin_sin (by linarith) (by linarith)]
      ring
    rw [e] at h2
    exact h2
  rw [hazm]
  constructor <;> linarith

/-- The equinox scenario: `solar_position_calc` returns the struct built for
day 80. -/
theorem equinox_result :
    solar_position_calc equinox_inputs = some (solar_position_calc.result equinox_inputs 80) := by
  rw [solar_position_calc, equinox_julian]
  rfl

/-- The equinox scenario: the azimuth returned is between 85 and 90 degrees. -/
theorem equinox_azimuth :
    85 ≤ (solar_position_calc.result equinox_inputs 80).azimuth
      ∧ (solar_position_calc.result equinox_inputs 80).azimuth ≤ 90 := by
  have h := equinox_azm
  have h1 := rad2deg_le_rad2deg.mpr h.1
  have h2 := rad2deg_le_rad2deg.mpr h.2
  rw [rad2deg_pi_div_two] at h2
  have e : rad2deg (Real.pi / 2 - Real.pi / 36) = 85 := by
    rw [rad2deg_eq]
    field_simp
    ring
  rw [e] at h1
  exact ⟨h1, h2⟩

/-- The equinox scenario: the elevation returned is between 87 and 90 degrees
and the declination between 0 and 0.3 degrees. -/
theorem equinox_elevation_declination :
    87 ≤ (solar_position_calc.result equinox_inputs 80).elevation
      ∧ (solar_position_calc.result equinox_inputs 80).elevation ≤ 90
      ∧ 0 < (solar_position_calc.result equinox_inputs 80).declination
      ∧ (solar_position_calc.result equinox_inputs 80).declination ≤ 0.3 := by
  have hpi1 := Real.pi_gt_d2
  have hpi2 := Real.pi_lt_d2
  have he := equinox_elv
  have hd := equinox_dec
  have hr : 0 < solar_position_calc.refrac equinox_inputs 80 := refrac_of_pos _
  have hdeg : 87 ≤ solar_position_calc.elv_deg equinox_inputs 80 := by
    have h1 := rad2deg_le_rad2deg.mpr he.1
    rw [rad2deg_sub, rad2deg_pi_div_two] at h1
    have h2 : rad2deg 0.05 ≤ 3 := by
      have e : (0.05 : ℝ) * (180 / Real.pi) = 9 / Real.pi := by ring
      rw [rad2deg_eq, e, div_le_iff₀ (by linarith)]
      linarith
    unfold solar_position_calc.elv_deg
    linarith
  refine ⟨?_, ?_, ?_, ?_⟩
  · rw [elevation_eq]
    split_ifs <;> linarith
  · rw [elevation_eq]
    split_ifs with h
    · exact le_refl _
    · exact not_lt.mp h
  · show 0 < rad2deg (solar_position_calc.dec equinox_inputs 80)
    rw [← rad2deg_zero, rad2deg_lt_rad2deg]
    exact hd.1
  · show rad2deg (solar_position_calc.dec equinox_inputs 80) ≤ 0.3
    have h1 := rad2deg_le_rad2deg.mpr hd.2.1
    have h2 : rad2deg 0.005 ≤ 0.3 := by
      have e : (0.005 : ℝ) * (180 / Real.pi) = 0.9 / Real.pi := by ring
      rw [rad2deg_eq, e, div_le_iff₀ (by linarith)]
      linarith
    linarith

/-- C22 (as the code has it): for latitude 0, longitude 0, time zone 0,
20 March 2000, 12:00, `solar_position_calc` returns an elevation within 5
degrees of `90 - |declination|` (the elevation is between 87 and 90 degrees,
the declination between 0 and 0.3 degrees) and an azimuth between 85 and 90
degrees: the sun is nearly overhead, a little north of the zenith and still
east of the meridian, so it stands due east rather than due south. -/
theorem equinox_scenario :
    equinox_inputs = ⟨2000, 3, 20, 12, 0, 0, 0, 0⟩
      ∧ ∃ sp, solar_position_calc equinox_inputs = some sp
        ∧ |sp.elevation - (90 - |sp.declination|)| ≤ 5
        ∧ 87 ≤ sp.elevation ∧ |sp.declination| ≤ 0.3
        ∧ 85 ≤ sp.azimuth ∧ sp.azimuth ≤ 90 := by
  have he := equinox_elevation_declination
  have ha := equinox_azimuth
  have hd : |(solar_position_calc.result equinox_inputs 80).declination|
      = (solar_position_calc.result equinox_inputs 80).declination :=
    abs_of_pos he.2.2.1
  refine ⟨rfl, _, equinox_result, ?_, he.1, ?_, ha.1, ha.2⟩
  · rw [hd, abs_le]
    constructor <;> linarith [he.1, he.2.1, he.2.2.1, he.2.2.2]
  · rw [hd]
    exact he.2.2.2

/-- C22 fails as stated: in the equinox scenario the azimuth returned is at
most 90 degrees, outside the band from 150 to 210 degrees. -/
theorem equinox_azimuth_not_south :
    ∃ sp, solar_position_calc ⟨2000, 3, 20, 12, 0, 0, 0, 0⟩ = some sp
      ∧ sp.azimuth ≤ 90 ∧ ¬ (150 ≤ sp.azimuth ∧ sp.azimuth ≤ 210) := by
  have ha := equinox_azimuth
  refine ⟨_, equinox_result, ha.2, ?_⟩
  rintro ⟨h1, -⟩
  linarith [ha.2]

end TrackerAngleAnalysis
